import Mathlib

/-!
Verification of the per-frame simulation core of the 3d-moba-experience
repository (src/App.tsx, src/unnamed/part_000).  Numbers of the JavaScript
source are modelled as real numbers; per-call results of Math.random() are
passed in explicitly as oracle arguments in [0,1).
-/

namespace Moba

/-- A point / vector on the ground plane (the y coordinate of every actor
position and every roam target in the source is the constant 0, so only the
x and z components are modelled). -/
structure V2 where
  x : ℝ
  z : ℝ

def V2.add (a b : V2) : V2 := ⟨a.x + b.x, a.z + b.z⟩

def V2.sub (a b : V2) : V2 := ⟨a.x - b.x, a.z - b.z⟩

def V2.smul (a : V2) (c : ℝ) : V2 := ⟨a.x * c, a.z * c⟩

/-- `THREE.Vector3.lengthSq` restricted to the ground plane. -/
def V2.lengthSq (a : V2) : ℝ := a.x * a.x + a.z * a.z

/-- `THREE.Vector3.distanceToSquared` restricted to the ground plane. -/
def distSq (a b : V2) : ℝ := (a.x - b.x) * (a.x - b.x) + (a.z - b.z) * (a.z - b.z)

/-- `THREE.Vector3.normalize`: divides by `length || 1`, so the zero vector
is left unchanged (division by 1). -/
noncomputable def normalize0 (v : V2) : V2 :=
  let l := Real.sqrt v.lengthSq
  let d := if l = 0 then 1 else l
  ⟨v.x / d, v.z / d⟩

/-- JavaScript `Math.trunc` on a real argument: round toward zero. -/
noncomputable def truncR (q : ℝ) : ℤ := if 0 ≤ q then ⌊q⌋ else ⌈q⌉

/-- The JavaScript `%` operator on numbers: remainder with the sign of the
dividend, `a % b = a - b * trunc (a / b)`. -/
noncomputable def jsRem (a b : ℝ) : ℝ := a - b * truncR (a / b)

/-- `Math.atan2 y x` (note the argument order of the JavaScript builtin). -/
noncomputable def atan2 (y x : ℝ) : ℝ :=
  if 0 < x then Real.arctan (y / x)
  else if x < 0 ∧ 0 ≤ y then Real.arctan (y / x) + Real.pi
  else if x < 0 ∧ y < 0 then Real.arctan (y / x) - Real.pi
  else if x = 0 ∧ 0 < y then Real.pi / 2
  else if x = 0 ∧ y < 0 then -(Real.pi / 2)
  else 0

/-- `shortestAngleDiff` from src/unnamed/part_000 lines 25-31. -/
noncomputable def shortestAngleDiff (current target : ℝ) : ℝ :=
  let M2PI := Real.pi * 2
  let d := jsRem (target - current) M2PI
  if d > Real.pi then d - M2PI
  else if d < -Real.pi then d + M2PI
  else d

/-- `THREE.MathUtils.clamp value min max = Math.max (min, Math.min (max, value))`. -/
noncomputable def clampR (v lo hi : ℝ) : ℝ := max lo (min hi v)

lemma jsRem_lt (a b : ℝ) (hb : 0 < b) : jsRem a b < b := by
  unfold jsRem truncR
  split
  · have h1 : (⌊a / b⌋ : ℝ) ≤ a / b := Int.floor_le _
    have h2 : a / b < ⌊a / b⌋ + 1 := Int.lt_floor_add_one _
    have := (div_lt_iff₀ hb).mp h2
    nlinarith
  · have h2 : (a / b : ℝ) ≤ ⌈a / b⌉ := Int.le_ceil _
    have := (div_le_iff₀ hb).mp h2
    nlinarith

lemma neg_lt_jsRem (a b : ℝ) (hb : 0 < b) : -b < jsRem a b := by
  unfold jsRem truncR
  split
  · have h1 : (⌊a / b⌋ : ℝ) ≤ a / b := Int.floor_le _
    have := (le_div_iff₀ hb).mp h1
    nlinarith
  · rename_i h
    push_neg at h
    have h2 : (⌈a / b⌉ : ℝ) - 1 < a / b := by
      have := Int.ceil_lt_add_one (a / b)
      linarith
    have h3 : b * ((⌈a / b⌉ : ℝ) - 1) < a := by
      have := (lt_div_iff₀ hb).mp h2
      nlinarith
    nlinarith

lemma jsRem_sub_int (a b : ℝ) : ∃ k : ℤ, jsRem a b = a - b * k :=
  ⟨truncR (a / b), rfl⟩

/-- C10: shortestAngleDiff returns a value in [-π, π] congruent to
`target - current` modulo 2π. -/
theorem C10_shortestAngleDiff_spec (current target : ℝ) :
    -Real.pi ≤ shortestAngleDiff current target ∧
    shortestAngleDiff current target ≤ Real.pi ∧
    ∃ k : ℤ, shortestAngleDiff current target = (target - current) + 2 * Real.pi * k := by
  have hb : (0 : ℝ) < Real.pi * 2 := by positivity
  have hlt := jsRem_lt (target - current) (Real.pi * 2) hb
  have hgt := neg_lt_jsRem (target - current) (Real.pi * 2) hb
  obtain ⟨k0, hk0⟩ := jsRem_sub_int (target - current) (Real.pi * 2)
  simp only [shortestAngleDiff]
  split
  · rename_i h
    refine ⟨by linarith, by linarith, ⟨-k0 - 1, ?_⟩⟩
    push_cast
    linarith [hk0]
  · split
    · rename_i h1 h2
      refine ⟨by linarith, by linarith, ⟨-k0 + 1, ?_⟩⟩
      push_cast
      linarith [hk0]
    · rename_i h1 h2
      push_neg at h1 h2
      refine ⟨by linarith, by linarith, ⟨-k0, ?_⟩⟩
      push_cast
      linarith [hk0]

/-! ## Input merge (src/App.tsx) -/

/-- `JoystickOutput` from src/types.ts. -/
structure JoystickOutput where
  x : ℝ
  y : ℝ
  active : Bool

/-- `initialJoystickData` from src/App.tsx line 9. -/
def initialJoystickData : JoystickOutput := ⟨0, 0, false⟩

/-- `effectiveJoystickData` from src/App.tsx lines 24-32: the per-frame merge
of the keyboard signal and the analog joystick signal. -/
def effectiveJoystickData (keyboardMovement joystickData : JoystickOutput) :
    JoystickOutput :=
  if keyboardMovement.active then keyboardMovement
  else if joystickData.active then joystickData
  else initialJoystickData

/-- C1 counterexample: with both sources active (keyboard pushing right,
joystick pushing down) the merged input is the keyboard signal, not the
joystick signal — the analog joystick does NOT win the merge. -/
theorem C1_counterexample :
    (effectiveJoystickData ⟨1, 0, true⟩ ⟨0, 1, true⟩).x = 1 ∧
    (effectiveJoystickData ⟨1, 0, true⟩ ⟨0, 1, true⟩).y = 0 ∧
    ¬ ((effectiveJoystickData ⟨1, 0, true⟩ ⟨0, 1, true⟩).y = (1 : ℝ)) := by
  refine ⟨rfl, rfl, ?_⟩
  simp only [effectiveJoystickData]
  norm_num

/-- C1 (amended): in the per-frame merge, whenever the keyboard reports
`active = true` the merged DirectionalInput equals the keyboard signal and the
joystick signal is ignored even if the joystick is also active; if only the
joystick is active the joystick signal is used; and if neither is active the
merged input is the zero/inactive input. -/
theorem C1_effectiveJoystickData_merge (k j : JoystickOutput) :
    (k.active = true → effectiveJoystickData k j = k) ∧
    (k.active = false → j.active = true → effectiveJoystickData k j = j) ∧
    (k.active = false → j.active = false →
      effectiveJoystickData k j = initialJoystickData) := by
  refine ⟨fun hk => ?_, fun hk hj => ?_, fun hk hj => ?_⟩
  · simp [effectiveJoystickData, hk]
  · simp [effectiveJoystickData, hk, hj]
  · simp [effectiveJoystickData, hk, hj]

/-- Witness for C1: a concrete merge with both sources active returns the
keyboard signal. -/
theorem C1_witness :
    effectiveJoystickData ⟨1, 0, true⟩ ⟨0, 1, true⟩ = ⟨1, 0, true⟩ :=
  (C1_effectiveJoystickData_merge ⟨1, 0, true⟩ ⟨0, 1, true⟩).1 rfl

/-! ## Orbit camera controller (src/unnamed/part_000 lines 487-515) -/

/-- `MIN_CAMERA_Y_POSITION` (line 7). -/
def MIN_CAMERA_Y_POSITION : ℝ := 0.5

/-- `MIN_PHI_ABS` (line 495). -/
def MIN_PHI_ABS : ℝ := 0.1

/-- `MAX_PHI_ABS` (line 496). -/
noncomputable def MAX_PHI_ABS : ℝ := Real.pi - 0.1

/-- The state read and written by `onWindowPointerMoveCallback`: spherical
camera coordinates, the fixed orbit radius, the camera target height and the
last recorded pointer position. -/
structure CameraDragState where
  phi : ℝ
  theta : ℝ
  radius : ℝ
  targetY : ℝ
  lastX : ℝ
  lastY : ℝ

/-- The `maxPhiForGround` computation of `onWindowPointerMoveCallback`
(lines 501-509): starts at `MAX_PHI_ABS` and is only replaced when
`radius > 0.001` and the ratio is in `[-1,1]` (arccos) or `> 1` (π/2). -/
noncomputable def maxPhiForGround (radius targetY : ℝ) : ℝ :=
  if radius > 0.001 then
    if (MIN_CAMERA_Y_POSITION - targetY) / radius ≥ -1 ∧
        (MIN_CAMERA_Y_POSITION - targetY) / radius ≤ 1 then
      min MAX_PHI_ABS (Real.arccos ((MIN_CAMERA_Y_POSITION - targetY) / radius))
    else if (MIN_CAMERA_Y_POSITION - targetY) / radius > 1 then
      min MAX_PHI_ABS (Real.pi / 2)
    else MAX_PHI_ABS
  else MAX_PHI_ABS

/-- `onWindowPointerMoveCallback` (lines 487-515).  `dragging` models
`cameraIsDraggingRef.current` and `pointerMatch` models
`event.pointerId === activeCameraPointerIdRef.current`; when either fails the
handler returns without touching the state. -/
noncomputable def onWindowPointerMoveCallback (dragging pointerMatch : Bool)
    (s : CameraDragState) (clientX clientY : ℝ) : CameraDragState :=
  if ¬ dragging ∨ ¬ pointerMatch then s
  else
    let deltaX := clientX - s.lastX
    let deltaY := clientY - s.lastY
    let newPhi := s.phi - deltaY * 0.005
    { s with
      theta := s.theta - deltaX * 0.005
      phi := clampR newPhi MIN_PHI_ABS (maxPhiForGround s.radius s.targetY)
      lastX := clientX
      lastY := clientY }

/-- C4 counterexample: with a zero orbit radius (degenerate geometry) the
fallback is the absolute cap `π - 0.1`, not `π/2`: a pointer move that keeps
the polar angle at 3 radians leaves it above `π/2`, so the polar angle is not
clamped into `[minPolar, π/2]`. -/
theorem C4_counterexample :
    maxPhiForGround 0 0 ≠ Real.pi / 2 ∧
    (onWindowPointerMoveCallback true true ⟨3, 0, 0, 0, 0, 0⟩ 0 0).phi >
      Real.pi / 2 := by
  have hpi1 : Real.pi < 3.15 := Real.pi_lt_d2
  have hpi2 : (3.141592 : ℝ) < Real.pi := Real.pi_gt_d6
  have hm : maxPhiForGround (0 : ℝ) (0 : ℝ) = MAX_PHI_ABS := by
    simp only [maxPhiForGround]
    rw [if_neg (by norm_num)]
  constructor
  · rw [hm]
    simp only [MAX_PHI_ABS]
    intro h
    nlinarith
  · have e : (onWindowPointerMoveCallback true true ⟨3, 0, 0, 0, 0, 0⟩ 0 0).phi =
        clampR (3 - (0 - 0) * 0.005) MIN_PHI_ABS (maxPhiForGround 0 0) := by
      simp [onWindowPointerMoveCallback]
    rw [e, hm]
    simp only [clampR, MIN_PHI_ABS, MAX_PHI_ABS]
    rw [show (3 : ℝ) - (0 - 0) * 0.005 = 3 by norm_num,
      min_eq_right (by nlinarith), max_eq_right (by norm_num)]
    nlinarith

/-- C4 (amended): on a camera pointer-move, when the ratio
`(minCameraHeight − targetHeight) / radius` exceeds 1 (with a usable radius)
the derived maximum polar angle falls back to `π/2` (capped by `π − 0.1`);
when the ratio is below −1 or the orbit radius is zero/near-zero
(`radius ≤ 0.001`) the maximum polar angle is the absolute cap `π − 0.1`; in
every such out-of-domain case the new polar angle is clamped into
`[minPolar, maxPhiForGround]` rather than any fault propagating. -/
theorem C4_maxPhi_fallback (s : CameraDragState) (cx cy : ℝ) :
    (s.radius > 0.001 → (MIN_CAMERA_Y_POSITION - s.targetY) / s.radius > 1 →
      maxPhiForGround s.radius s.targetY = Real.pi / 2) ∧
    ((s.radius ≤ 0.001 ∨ (MIN_CAMERA_Y_POSITION - s.targetY) / s.radius < -1) →
      maxPhiForGround s.radius s.targetY = MAX_PHI_ABS) ∧
    ((s.radius ≤ 0.001 ∨ (MIN_CAMERA_Y_POSITION - s.targetY) / s.radius < -1 ∨
        (MIN_CAMERA_Y_POSITION - s.targetY) / s.radius > 1) →
      MIN_PHI_ABS ≤ (onWindowPointerMoveCallback true true s cx cy).phi ∧
      (onWindowPointerMoveCallback true true s cx cy).phi ≤
        maxPhiForGround s.radius s.targetY) := by
  have hpi2 : (3.141592 : ℝ) < Real.pi := Real.pi_gt_d6
  have hhalf : Real.pi / 2 ≤ MAX_PHI_ABS := by
    simp only [MAX_PHI_ABS]; nlinarith
  have hmax01 : MIN_PHI_ABS ≤ MAX_PHI_ABS := by
    simp only [MIN_PHI_ABS, MAX_PHI_ABS]; nlinarith
  have hfall : ∀ h : (s.radius ≤ 0.001 ∨
      (MIN_CAMERA_Y_POSITION - s.targetY) / s.radius < -1 ∨
      (MIN_CAMERA_Y_POSITION - s.targetY) / s.radius > 1),
      maxPhiForGround s.radius s.targetY = MAX_PHI_ABS ∨
      maxPhiForGround s.radius s.targetY = Real.pi / 2 := by
    intro h
    simp only [maxPhiForGround]
    rcases h with h | h | h
    · rw [if_neg (by push_neg; linarith)]; left; rfl
    · by_cases hr : s.radius > 0.001
      · rw [if_pos hr, if_neg (by push_neg; intro h1; linarith),
          if_neg (by linarith)]
        left; rfl
      · rw [if_neg hr]; left; rfl
    · by_cases hr : s.radius > 0.001
      · rw [if_pos hr, if_neg (by push_neg; intro h1; linarith), if_pos h]
        right; exact min_eq_right hhalf
      · rw [if_neg hr]; left; rfl
  refine ⟨fun hr hratio => ?_, fun h => ?_, fun h => ?_⟩
  · simp only [maxPhiForGround]
    rw [if_pos hr, if_neg (by push_neg; intro h1; linarith), if_pos hratio]
    exact min_eq_right hhalf
  · rcases h with h | h
    · simp only [maxPhiForGround]; rw [if_neg (by push_neg; linarith)]
    · by_cases hr : s.radius > 0.001
      · simp only [maxPhiForGround]
        rw [if_pos hr, if_neg (by push_neg; intro h1; linarith),
          if_neg (by linarith)]
      · simp only [maxPhiForGround]; rw [if_neg hr]
  · have hlohi : MIN_PHI_ABS ≤ maxPhiForGround s.radius s.targetY := by
      rcases hfall h with he | he
      · rw [he]; exact hmax01
      · rw [he]; simp only [MIN_PHI_ABS]; nlinarith
    have e : (onWindowPointerMoveCallback true true s cx cy).phi =
        clampR (s.phi - (cy - s.lastY) * 0.005) MIN_PHI_ABS
          (maxPhiForGround s.radius s.targetY) := by
      simp [onWindowPointerMoveCallback]
    rw [e]
    exact ⟨le_max_left _ _, max_le hlohi (min_le_left _ _)⟩

/-- Witness for C4: at zero radius the fallback is the absolute cap and the
resulting polar angle stays within `[minPolar, maxPhiForGround]`. -/
theorem C4_witness :
    maxPhiForGround (0 : ℝ) (0 : ℝ) = MAX_PHI_ABS ∧
    MIN_PHI_ABS ≤ (onWindowPointerMoveCallback true true ⟨1, 0, 0, 0, 0, 0⟩ 0 0).phi ∧
    (onWindowPointerMoveCallback true true ⟨1, 0, 0, 0, 0, 0⟩ 0 0).phi ≤
      maxPhiForGround (0 : ℝ) (0 : ℝ) :=
  ⟨(C4_maxPhi_fallback ⟨1, 0, 0, 0, 0, 0⟩ 0 0).2.1 (Or.inl (by norm_num)),
   (C4_maxPhi_fallback ⟨1, 0, 0, 0, 0, 0⟩ 0 0).2.2 (Or.inl (by norm_num))⟩

/-- C9: a single pointer-move on the captured pointer with client deltas
`dx = 100, dy = 0` (sensitivity 0.005) decreases the azimuth by exactly 0.5
radians and, provided the polar angle satisfies the controller's own clamp
invariant, leaves the polar angle unchanged. -/
theorem C9_drag_azimuth (s : CameraDragState)
    (h1 : MIN_PHI_ABS ≤ s.phi)
    (h2 : s.phi ≤ maxPhiForGround s.radius s.targetY) :
    (onWindowPointerMoveCallback true true s (s.lastX + 100) s.lastY).theta =
      s.theta - 0.5 ∧
    (onWindowPointerMoveCallback true true s (s.lastX + 100) s.lastY).phi =
      s.phi := by
  have et : (onWindowPointerMoveCallback true true s (s.lastX + 100) s.lastY).theta =
      s.theta - (s.lastX + 100 - s.lastX) * 0.005 := by
    simp [onWindowPointerMoveCallback]
  have ep : (onWindowPointerMoveCallback true true s (s.lastX + 100) s.lastY).phi =
      clampR (s.phi - (s.lastY - s.lastY) * 0.005) MIN_PHI_ABS
        (maxPhiForGround s.radius s.targetY) := by
    simp [onWindowPointerMoveCallback]
  constructor
  · rw [et]; ring
  · rw [ep, show s.phi - (s.lastY - s.lastY) * 0.005 = s.phi by ring]
    simp only [clampR]
    rw [min_eq_right h2, max_eq_right h1]

/-- Witness for C9 at a concrete state: radius 0 gives the absolute polar cap,
which the chosen polar angle 1 satisfies. -/
theorem C9_witness :
    (onWindowPointerMoveCallback true true ⟨1, 2, 0, 0, 5, 7⟩ (5 + 100) 7).theta =
      2 - 0.5 ∧
    (onWindowPointerMoveCallback true true ⟨1, 2, 0, 0, 5, 7⟩ (5 + 100) 7).phi = 1 :=
  C9_drag_azimuth ⟨1, 2, 0, 0, 5, 7⟩ (by norm_num [MIN_PHI_ABS])
    (by
      have hpi2 : (3.141592 : ℝ) < Real.pi := Real.pi_gt_d6
      have hm : maxPhiForGround (0 : ℝ) (0 : ℝ) = MAX_PHI_ABS := by
        simp only [maxPhiForGround]
        rw [if_neg (by norm_num)]
      rw [hm]
      simp only [MAX_PHI_ABS]
      nlinarith)

/-! ## Particle pool (src/unnamed/part_000 lines 176-180, 261-279, 476-483,
821-834) -/

/-- A full 3-D vector (used for puff velocities). -/
structure V3 where
  x : ℝ
  y : ℝ
  z : ℝ

/-- `NUM_SMOKE_PUFFS` (line 178): the fixed pool capacity. -/
def NUM_SMOKE_PUFFS : ℕ := 15

/-- `SMOKE_PUFF_LIFETIME` (line 178). -/
def SMOKE_PUFF_LIFETIME : ℝ := 1.2

/-- `ActiveSmokePuff` (line 180); the mesh reference is modelled by the pool
index of the mesh (meshes are created once, line 476-483, and compared by
identity in `emitSmokePuffs`). -/
structure ActiveSmokePuff where
  mesh : Fin NUM_SMOKE_PUFFS
  lifetime : ℝ
  initialLifetime : ℝ
  velocity : V3

/-- Mesh identities of the currently active puffs. -/
def meshes (active : List ActiveSmokePuff) : List (Fin NUM_SMOKE_PUFFS) :=
  active.map ActiveSmokePuff.mesh

/-- The `for (const puffMesh of smokePuffsPoolRef.current)` loop of
`emitSmokePuffs` (lines 264-278).  `rnd i` is the i-th `Math.random()` result
consumed by this call; each activation consumes six (two positional offsets,
three velocity components, one lifetime factor).  The mesh position/opacity/
scale writes are renderer-side and not tracked. -/
noncomputable def emitLoop (puffsToEmit : ℤ) (rnd : ℕ → ℝ) :
    List (Fin NUM_SMOKE_PUFFS) → ℕ → ℕ → List ActiveSmokePuff →
      List ActiveSmokePuff
  | [], _, _, active => active
  | m :: rest, emitted, ri, active =>
    if (emitted : ℤ) ≥ puffsToEmit then active
    else if active.any fun p => p.mesh == m then
      emitLoop puffsToEmit rnd rest emitted ri active
    else
      let velocity : V3 :=
        ⟨(rnd (ri + 2) - 0.5) * 0.8, 0.8 + rnd (ri + 3) * 0.7,
          (rnd (ri + 4) - 0.5) * 0.8⟩
      emitLoop puffsToEmit rnd rest (emitted + 1) (ri + 6)
        (active ++ [⟨m, SMOKE_PUFF_LIFETIME * (0.8 + rnd (ri + 5) * 0.4),
          SMOKE_PUFF_LIFETIME, velocity⟩])

/-- `emitSmokePuffs` (lines 261-279).  `baseRand` is the `Math.random()` of
the `puffsToEmit` computation; the texture-loaded guard of line 262 concerns
an external asset and is taken as satisfied. -/
noncomputable def emitSmokePuffs (active : List ActiveSmokePuff)
    (position : V3) (countMultiplier baseRand : ℝ) (rnd : ℕ → ℝ) :
    List ActiveSmokePuff :=
  let puffsToEmit : ℤ := ⌊((5 + (⌊baseRand * 4⌋ : ℤ) : ℤ) : ℝ) * countMultiplier⌋
  emitLoop puffsToEmit rnd (List.finRange NUM_SMOKE_PUFFS) 0 0 active

/-- The per-tick smoke puff update (lines 821-834): each active puff's
remaining lifetime is decremented by `delta` and the puff is dropped from the
active list when it reaches zero.  Mesh visual state is renderer-side. -/
noncomputable def smokePuffsUpdate (active : List ActiveSmokePuff)
    (delta : ℝ) : List ActiveSmokePuff :=
  active.filterMap fun puff =>
    if puff.lifetime - delta ≤ 0 then none
    else some { puff with lifetime := puff.lifetime - delta }

/-- An operation on the particle pool: an `emitSmokePuffs` call or one tick
of the per-frame update. -/
inductive PoolOp where
  | emit (position : V3) (countMultiplier baseRand : ℝ) (rnd : ℕ → ℝ)
  | update (delta : ℝ)

noncomputable def applyPoolOp (active : List ActiveSmokePuff) :
    PoolOp → List ActiveSmokePuff
  | .emit position countMultiplier baseRand rnd =>
      emitSmokePuffs active position countMultiplier baseRand rnd
  | .update delta => smokePuffsUpdate active delta

/-- Running a sequence of pool operations from the initial (empty) active
list of the scene setup. -/
noncomputable def runPoolOps (ops : List PoolOp) : List ActiveSmokePuff :=
  ops.foldl applyPoolOp []

lemma emitLoop_nodup (puffsToEmit : ℤ) (rnd : ℕ → ℝ)
    (pool : List (Fin NUM_SMOKE_PUFFS)) :
    ∀ (emitted ri : ℕ) (active : List ActiveSmokePuff),
      (meshes active).Nodup →
      (meshes (emitLoop puffsToEmit rnd pool emitted ri active)).Nodup := by
  induction pool with
  | nil => intro emitted ri active h; exact h
  | cons m rest ih =>
    intro emitted ri active h
    simp only [emitLoop]
    split
    · exact h
    · split
      · exact ih emitted ri active h
      · rename_i hge hany
        refine ih (emitted + 1) (ri + 6) _ ?_
        have hm : m ∉ meshes active := by
          intro hmem
          apply hany
          simp only [meshes, List.mem_map] at hmem
          obtain ⟨p, hp, hpm⟩ := hmem
          simp only [List.any_eq_true]
          exact ⟨p, hp, by simp [hpm]⟩
        simp only [meshes, List.map_append, List.map_cons, List.map_nil]
        exact List.Nodup.append h (List.nodup_singleton m)
          ((List.disjoint_singleton).mpr hm)

lemma smokePuffsUpdate_sublist (active : List ActiveSmokePuff) (delta : ℝ) :
    List.Sublist (meshes (smokePuffsUpdate active delta)) (meshes active) := by
  simp only [meshes, smokePuffsUpdate]
  induction active with
  | nil => simp
  | cons p rest ih =>
    by_cases h : p.lifetime - delta ≤ 0
    · simp only [List.filterMap_cons, if_pos h]
      exact ih.cons p.mesh
    · simp only [List.filterMap_cons, if_neg h, List.map_cons]
      exact ih.cons₂ p.mesh

lemma applyPoolOp_nodup (active : List ActiveSmokePuff) (op : PoolOp)
    (h : (meshes active).Nodup) : (meshes (applyPoolOp active op)).Nodup := by
  cases op with
  | emit position countMultiplier baseRand rnd =>
    exact emitLoop_nodup _ rnd (List.finRange NUM_SMOKE_PUFFS) 0 0 active h
  | update delta => exact (smokePuffsUpdate_sublist active delta).nodup h

lemma runPoolOps_nodup (ops : List PoolOp) :
    (meshes (runPoolOps ops)).Nodup := by
  have key : ∀ (l : List PoolOp) (active : List ActiveSmokePuff),
      (meshes active).Nodup → (meshes (l.foldl applyPoolOp active)).Nodup := by
    intro l
    induction l with
    | nil => intro active h; exact h
    | cons op rest ih =>
      intro active h
      exact ih _ (applyPoolOp_nodup active op h)
  exact key ops [] (by simp [meshes])

lemma emitLoop_saturated (puffsToEmit : ℤ) (rnd : ℕ → ℝ)
    (pool : List (Fin NUM_SMOKE_PUFFS)) :
    ∀ (emitted ri : ℕ) (active : List ActiveSmokePuff),
      (∀ m ∈ pool, m ∈ meshes active) →
      emitLoop puffsToEmit rnd pool emitted ri active = active := by
  induction pool with
  | nil => intro emitted ri active _; rfl
  | cons m rest ih =>
    intro emitted ri active hall
    have hm : m ∈ meshes active := hall m (List.mem_cons_self m rest)
    have hany : (active.any fun p => p.mesh == m) = true := by
      simp only [meshes, List.mem_map] at hm
      obtain ⟨p, hp, hpm⟩ := hm
      simp only [List.any_eq_true]
      exact ⟨p, hp, by simp [hpm]⟩
    simp only [emitLoop]
    split
    · rfl
    · exact ih emitted ri active fun x hx => hall x (List.mem_cons_of_mem m hx)

/-- C6: the number of simultaneously active smoke puffs never exceeds the
pool capacity of 15 across any sequence of emit calls and update ticks; and
an emit call arriving with all 15 puffs active leaves the active list exactly
unchanged (zero additional activations, nothing queued, no error). -/
theorem C6_pool_never_exceeds_capacity :
    (∀ ops : List PoolOp, (runPoolOps ops).length ≤ NUM_SMOKE_PUFFS) ∧
    (∀ (active : List ActiveSmokePuff) (position : V3)
        (countMultiplier baseRand : ℝ) (rnd : ℕ → ℝ),
      (meshes active).Nodup → active.length = NUM_SMOKE_PUFFS →
      emitSmokePuffs active position countMultiplier baseRand rnd = active) := by
  constructor
  · intro ops
    have h := runPoolOps_nodup ops
    have hlen : (meshes (runPoolOps ops)).length ≤ Fintype.card (Fin NUM_SMOKE_PUFFS) :=
      h.length_le_card
    simpa [meshes] using hlen
  · intro active position countMultiplier baseRand rnd hnd hlen
    have hcard : (meshes active).toFinset.card = (meshes active).length :=
      List.toFinset_card_of_nodup hnd
    have hlen' : (meshes active).length = NUM_SMOKE_PUFFS := by
      simp [meshes, hlen]
    have huniv : (meshes active).toFinset = Finset.univ := by
      apply Finset.eq_univ_of_card
      rw [hcard, hlen']
      simp [NUM_SMOKE_PUFFS]
    have hall : ∀ m ∈ List.finRange NUM_SMOKE_PUFFS, m ∈ meshes active := by
      intro m _
      have : m ∈ (meshes active).toFinset := by rw [huniv]; exact Finset.mem_univ m
      exact List.mem_toFinset.mp this
    exact emitLoop_saturated _ rnd _ 0 0 active hall

/-- Witness for C6: the empty run keeps the count within capacity, and an
emit into a concrete fully occupied pool activates nothing. -/
theorem C6_witness :
    (runPoolOps [PoolOp.update 1]).length ≤ NUM_SMOKE_PUFFS ∧
    emitSmokePuffs
      ((List.finRange NUM_SMOKE_PUFFS).map
        fun m => ⟨m, 1, SMOKE_PUFF_LIFETIME, ⟨0, 0, 0⟩⟩)
      ⟨0, 0, 0⟩ 1 0 (fun _ => 0) =
      (List.finRange NUM_SMOKE_PUFFS).map
        fun m => ⟨m, 1, SMOKE_PUFF_LIFETIME, ⟨0, 0, 0⟩⟩ :=
  ⟨C6_pool_never_exceeds_capacity.1 [PoolOp.update 1],
   C6_pool_never_exceeds_capacity.2 _ ⟨0, 0, 0⟩ 1 0 (fun _ => 0)
    (by simp [meshes, List.map_map, Function.comp]
        exact List.nodup_finRange NUM_SMOKE_PUFFS)
    (by simp)⟩

/-! ## Attack visual effects (src/unnamed/part_000 lines 281-294, 664-674,
683-698) -/

/-- A `THREE.Color`: components in normalized [0,1] per channel. -/
structure Color where
  r : ℝ
  g : ℝ
  b : ℝ

/-- `THREE.Color.lerpColors c1 c2 t`: componentwise `c1 + (c2 - c1) * t`. -/
def lerpColors (c1 c2 : Color) (t : ℝ) : Color :=
  ⟨c1.r + (c2.r - c1.r) * t, c1.g + (c2.g - c1.g) * t, c1.b + (c2.b - c1.b) * t⟩

/-- Color 0x000000. -/
def blackColor : Color := ⟨0, 0, 0⟩

/-- Color 0xffffff. -/
def whiteColor : Color := ⟨1, 1, 1⟩

/-- Color 0xffcc66 (the enemy attack pulse tint). -/
noncomputable def pulseTint : Color := ⟨1, 204 / 255, 102 / 255⟩

/-- Color 0xffaa33 (the enemy attack pulse emissive). -/
noncomputable def pulseEmissive : Color := ⟨1, 170 / 255, 51 / 255⟩

/-- The material fields written by the attack visuals: tint color, emissive
color and emissive intensity. -/
structure MaterialSt where
  color : Color
  emissive : Color
  emissiveIntensity : ℝ

/-- The attack-visual substate of an actor: the active flag, the effect
timer, and the actor's material. -/
structure EffectSt where
  active : Bool
  timer : ℝ
  mat : MaterialSt

/-- `PLAYER_ATTACK_EFFECT_DURATION` (line 5). -/
def PLAYER_ATTACK_EFFECT_DURATION : ℝ := 0.3

/-- `ENEMY_ATTACK_EFFECT_DURATION` (line 19). -/
def ENEMY_ATTACK_EFFECT_DURATION : ℝ := 0.45

/-- The reset material written when an attack visual expires: the actor's
original color, black emissive, zero emissive intensity (lines 669-672 for
the player, 689-691 for the enemy). -/
def restMaterial (originalColor : Color) : MaterialSt :=
  ⟨originalColor, blackColor, 0⟩

/-- The attack-trigger effect on the player (lines 286-291): activates the
visual, zeroes its timer, and writes the flash material. -/
def playerAttackStart (originalColor : Color) (s : EffectSt) : EffectSt :=
  ⟨true, 0, ⟨lerpColors originalColor whiteColor 0.3, originalColor, 0.7⟩⟩

/-- The per-tick player attack-visual update (lines 664-674): while active,
advance the timer; at the fixed duration reset the material to the original
color, black emissive and zero intensity. -/
noncomputable def playerEffectTick (originalColor : Color) (s : EffectSt)
    (delta : ℝ) : EffectSt :=
  if s.active then
    if s.timer + delta ≥ PLAYER_ATTACK_EFFECT_DURATION then
      ⟨false, 0, restMaterial originalColor⟩
    else ⟨true, s.timer + delta, s.mat⟩
  else s

/-- The enemy attack start (lines 734-735): raises the visual flag and zeroes
the effect timer; the enemy material is not written at start, only by the
per-tick visual block. -/
def enemyAttackStart (s : EffectSt) : EffectSt := ⟨true, 0, s.mat⟩

/-- The per-tick enemy attack-visual update (lines 683-698): while active,
advance the timer; at the fixed duration reset the material exactly to the
original color, black emissive and zero intensity; otherwise pulse the tint
and emissive with a half-sine of the elapsed fraction. -/
noncomputable def enemyEffectTick (originalColor : Color) (s : EffectSt)
    (delta : ℝ) : EffectSt :=
  if s.active then
    if s.timer + delta ≥ ENEMY_ATTACK_EFFECT_DURATION then
      ⟨false, 0, restMaterial originalColor⟩
    else
      ⟨true, s.timer + delta,
        ⟨lerpColors originalColor pulseTint
            (Real.sin ((s.timer + delta) / ENEMY_ATTACK_EFFECT_DURATION *
              Real.pi) * 0.7),
          pulseEmissive,
          Real.sin ((s.timer + delta) / ENEMY_ATTACK_EFFECT_DURATION *
              Real.pi) * 0.7 * 1.5⟩⟩
  else s

lemma playerEffectTick_run (originalColor : Color) :
    ∀ (deltas : List ℝ) (s : EffectSt), (∀ d ∈ deltas, 0 ≤ d) →
      ((s.active = false ∧ s.mat = restMaterial originalColor) ∨
        (s.active = true ∧
          PLAYER_ATTACK_EFFECT_DURATION ≤ s.timer + deltas.sum ∧ deltas ≠ [])) →
      (deltas.foldl (playerEffectTick originalColor) s).active = false ∧
      (deltas.foldl (playerEffectTick originalColor) s).mat =
        restMaterial originalColor := by
  intro deltas
  induction deltas with
  | nil =>
    intro s _ h
    rcases h with ⟨h1, h2⟩ | ⟨_, _, h3⟩
    · exact ⟨h1, h2⟩
    · exact absurd rfl h3
  | cons d rest ih =>
    intro s hnn h
    have hd : 0 ≤ d := hnn d (List.mem_cons_self d rest)
    have hrest : ∀ x ∈ rest, 0 ≤ x := fun x hx =>
      hnn x (List.mem_cons_of_mem d hx)
    simp only [List.foldl_cons]
    rcases h with ⟨h1, h2⟩ | ⟨h1, h2, _⟩
    · refine ih _ hrest (Or.inl ?_)
      simp [playerEffectTick, h1, h2]
    · simp only [List.sum_cons] at h2
      by_cases hdur : s.timer + d ≥ PLAYER_ATTACK_EFFECT_DURATION
      · refine ih _ hrest (Or.inl ?_)
        simp [playerEffectTick, h1, hdur]
      · refine ih _ hrest (Or.inr ?_)
        have he : playerEffectTick originalColor s d =
            ⟨true, s.timer + d, s.mat⟩ := by
          simp [playerEffectTick, h1, hdur]
        refine ⟨by rw [he], by rw [he]; dsimp only; linarith, ?_⟩
        intro hnil
        rw [hnil] at h2
        simp only [List.sum_nil, add_zero] at h2
        exact hdur (by linarith)

lemma enemyEffectTick_run (originalColor : Color) :
    ∀ (deltas : List ℝ) (s : EffectSt), (∀ d ∈ deltas, 0 ≤ d) →
      ((s.active = false ∧ s.mat = restMaterial originalColor) ∨
        (s.active = true ∧
          ENEMY_ATTACK_EFFECT_DURATION ≤ s.timer + deltas.sum ∧ deltas ≠ [])) →
      (deltas.foldl (enemyEffectTick originalColor) s).active = false ∧
      (deltas.foldl (enemyEffectTick originalColor) s).mat =
        restMaterial originalColor := by
  intro deltas
  induction deltas with
  | nil =>
    intro s _ h
    rcases h with ⟨h1, h2⟩ | ⟨_, _, h3⟩
    · exact ⟨h1, h2⟩
    · exact absurd rfl h3
  | cons d rest ih =>
    intro s hnn h
    have hd : 0 ≤ d := hnn d (List.mem_cons_self d rest)
    have hrest : ∀ x ∈ rest, 0 ≤ x := fun x hx =>
      hnn x (List.mem_cons_of_mem d hx)
    simp only [List.foldl_cons]
    rcases h with ⟨h1, h2⟩ | ⟨h1, h2, _⟩
    · refine ih _ hrest (Or.inl ?_)
      simp [enemyEffectTick, h1, h2]
    · simp only [List.sum_cons] at h2
      by_cases hdur : s.timer + d ≥ ENEMY_ATTACK_EFFECT_DURATION
      · refine ih _ hrest (Or.inl ?_)
        simp [enemyEffectTick, h1, hdur]
      · refine ih _ hrest (Or.inr ?_)
        have he : (enemyEffectTick originalColor s d).active = true ∧
            (enemyEffectTick originalColor s d).timer = s.timer + d := by
          simp [enemyEffectTick, h1, hdur]
        refine ⟨he.1, by rw [he.2]; linarith, ?_⟩
        intro hnil
        rw [hnil] at h2
        simp only [List.sum_nil, add_zero] at h2
        exact hdur (by linarith)

/-- C7 (amended): for both actors, an attack visual, once started, ends — for
any sequence of nonnegative tick deltas summing to at least the fixed
duration — with the material equal to the fixed reset values (original tint,
black emissive, zero emissive intensity).  This equals the values held
immediately before the attack started exactly when the actor's material was
at that rest state at the start (in particular it is not a round-trip from an
arbitrary pre-attack material, see the counterexample). -/
theorem C7_attack_visual_ends_at_rest (originalColor : Color) (s : EffectSt)
    (deltas : List ℝ) (hnn : ∀ d ∈ deltas, 0 ≤ d) :
    (PLAYER_ATTACK_EFFECT_DURATION ≤ deltas.sum →
      (deltas.foldl (playerEffectTick originalColor)
          (playerAttackStart originalColor s)).active = false ∧
      (deltas.foldl (playerEffectTick originalColor)
          (playerAttackStart originalColor s)).mat =
        restMaterial originalColor) ∧
    (ENEMY_ATTACK_EFFECT_DURATION ≤ deltas.sum →
      (deltas.foldl (enemyEffectTick originalColor)
          (enemyAttackStart s)).active = false ∧
      ((deltas.foldl (enemyEffectTick originalColor)
          (enemyAttackStart s)).mat = restMaterial originalColor ∧
        (s.mat = restMaterial originalColor →
          (deltas.foldl (enemyEffectTick originalColor)
              (enemyAttackStart s)).mat = s.mat))) := by
  have hnonnil : ∀ c : ℝ, 0 < c → c ≤ deltas.sum → deltas ≠ [] := by
    intro c hc hsum hnil
    rw [hnil] at hsum
    simp only [List.sum_nil] at hsum
    linarith
  constructor
  · intro hsum
    refine playerEffectTick_run originalColor deltas
      (playerAttackStart originalColor s) hnn (Or.inr ⟨rfl, ?_, ?_⟩)
    · simp only [playerAttackStart]
      linarith
    · exact hnonnil PLAYER_ATTACK_EFFECT_DURATION (by norm_num
        [PLAYER_ATTACK_EFFECT_DURATION]) hsum
  · intro hsum
    have h := enemyEffectTick_run originalColor deltas (enemyAttackStart s)
      hnn (Or.inr ⟨rfl, by simp only [enemyAttackStart]; linarith,
        hnonnil ENEMY_ATTACK_EFFECT_DURATION (by norm_num
          [ENEMY_ATTACK_EFFECT_DURATION]) hsum⟩)
    exact ⟨h.1, h.2, fun hrest => by rw [h.2, hrest]⟩

/-- Witness for C7: a single 0.5 s tick after a start from the rest material
returns both actors' materials exactly to the rest values. -/
theorem C7_witness :
    ([(0.5 : ℝ)].foldl (playerEffectTick ⟨1, 0, 0⟩)
        (playerAttackStart ⟨1, 0, 0⟩ ⟨false, 0, restMaterial ⟨1, 0, 0⟩⟩)).mat =
      restMaterial ⟨1, 0, 0⟩ ∧
    ([(0.5 : ℝ)].foldl (enemyEffectTick ⟨1, 0, 0⟩)
        (enemyAttackStart ⟨false, 0, restMaterial ⟨1, 0, 0⟩⟩)).mat =
      restMaterial ⟨1, 0, 0⟩ := by
  have h := C7_attack_visual_ends_at_rest ⟨1, 0, 0⟩
    ⟨false, 0, restMaterial ⟨1, 0, 0⟩⟩ [(0.5 : ℝ)]
    (by intro d hd; simp only [List.mem_singleton] at hd; rw [hd]; norm_num)
  refine ⟨(h.1 ?_).2, (h.2 ?_).2.1⟩
  · simp only [List.sum_cons, List.sum_nil, PLAYER_ATTACK_EFFECT_DURATION]
    norm_num
  · simp only [List.sum_cons, List.sum_nil, ENEMY_ATTACK_EFFECT_DURATION]
    norm_num

/-- C7 counterexample: trigger the player attack, tick 0.15 s (mid-visual),
trigger a second attack — the pre-attack baseline of that second visual has
emissive intensity 0.7 — then tick 0.3 s (≥ the fixed duration): the visual
ends with emissive intensity 0, not the baseline 0.7.  So an attack visual
does not in general restore the values held immediately before it started. -/
theorem C7_counterexample :
    (playerEffectTick ⟨1, 0, 0⟩
        (playerAttackStart ⟨1, 0, 0⟩ ⟨false, 0, restMaterial ⟨1, 0, 0⟩⟩)
        0.15).mat.emissiveIntensity = 0.7 ∧
    (0.3 : ℝ) ≥ PLAYER_ATTACK_EFFECT_DURATION ∧
    (playerEffectTick ⟨1, 0, 0⟩
        (playerAttackStart ⟨1, 0, 0⟩
          (playerEffectTick ⟨1, 0, 0⟩
            (playerAttackStart ⟨1, 0, 0⟩ ⟨false, 0, restMaterial ⟨1, 0, 0⟩⟩)
            0.15))
        0.3).mat.emissiveIntensity = 0 ∧
    (0 : ℝ) ≠ 0.7 := by
  have h1 : playerEffectTick ⟨1, 0, 0⟩
      (playerAttackStart ⟨1, 0, 0⟩ ⟨false, 0, restMaterial ⟨1, 0, 0⟩⟩) 0.15 =
      ⟨true, 0 + 0.15,
        ⟨lerpColors ⟨1, 0, 0⟩ whiteColor 0.3, ⟨1, 0, 0⟩, 0.7⟩⟩ := by
    simp only [playerEffectTick, playerAttackStart, PLAYER_ATTACK_EFFECT_DURATION]
    norm_num
  refine ⟨by rw [h1], by norm_num [PLAYER_ATTACK_EFFECT_DURATION], ?_, by norm_num⟩
  rw [h1]
  simp only [playerEffectTick, playerAttackStart, PLAYER_ATTACK_EFFECT_DURATION,
    restMaterial]
  norm_num

/-! ## Constants of the simulation core (src/unnamed/part_000 lines 5-21,
251-256) -/

/-- `mapRadius` (line 251). -/
def mapRadius : ℝ := 50

/-- `ENEMY_MOVE_SPEED` (line 9). -/
def ENEMY_MOVE_SPEED : ℝ := 3.2

/-- `ENEMY_ROTATION_SPEED` (line 10). -/
noncomputable def ENEMY_ROTATION_SPEED : ℝ := Real.pi * 1.8

/-- `ENEMY_ROAM_TARGET_UPDATE_MIN_INTERVAL` (line 11). -/
def ENEMY_ROAM_TARGET_UPDATE_MIN_INTERVAL : ℝ := 4

/-- `ENEMY_ROAM_TARGET_UPDATE_MAX_INTERVAL` (line 12). -/
def ENEMY_ROAM_TARGET_UPDATE_MAX_INTERVAL : ℝ := 8

/-- `ENEMY_TARGET_REACH_THRESHOLD` (line 13). -/
def ENEMY_TARGET_REACH_THRESHOLD : ℝ := 0.5

/-- `ENEMY_DETECTION_RANGE_SQR = (50 * 0.45)²` (line 16). -/
def ENEMY_DETECTION_RANGE_SQR : ℝ := (50 * 0.45) * (50 * 0.45)

/-- `ENEMY_ATTACK_RANGE_SQR = 2.2²` (line 17). -/
def ENEMY_ATTACK_RANGE_SQR : ℝ := 2.2 * 2.2

/-- `ENEMY_ATTACK_COOLDOWN` (line 18). -/
def ENEMY_ATTACK_COOLDOWN : ℝ := 2.5

/-- `TOWER_AVOIDANCE_RANGE_ENEMY_SQR = (50 * 0.20)²` (line 20). -/
def TOWER_AVOIDANCE_RANGE_ENEMY_SQR : ℝ := (50 * 0.20) * (50 * 0.20)

/-- `FLEE_DISTANCE_FROM_TOWER` (line 21). -/
def FLEE_DISTANCE_FROM_TOWER : ℝ := 50 * 0.1

/-- `blueFountainPosition` (line 255). -/
def blueFountainPosition : V2 := ⟨0, -(50 * 0.88)⟩

/-- `redFountainPosition` (line 256). -/
def redFountainPosition : V2 := ⟨0, 50 * 0.88⟩

/-! ## Player controller (src/unnamed/part_000 lines 626-662) -/

/-- The player movement state: ground position, facing angle, and the walk
bob accumulator (`playerWalkAnimationTimeRef`). -/
structure PlayerSt where
  position : V2
  rotationY : ℝ
  walkTime : ℝ

/-- The raw player movement vector (lines 635-642): ground-projected
normalized camera direction times `-joy.y` plus the normalized camera-right
(cross of up and the camera direction) times `-joy.x`; the zero vector when
the input is inactive. -/
noncomputable def playerMoveVectorRaw (joy : JoystickOutput) (camDir : V2) : V2 :=
  if joy.active then
    let dir := normalize0 camDir
    let moveForward := dir.smul (-joy.y)
    let cameraRight := normalize0 ⟨dir.z, -dir.x⟩
    let moveStrafe := cameraRight.smul (-joy.x)
    moveForward.add moveStrafe
  else ⟨0, 0⟩

/-- Lines 643-646: the move vector is normalized when its squared length
exceeds 0.01, otherwise it is used as is. -/
noncomputable def playerMoveVector (joy : JoystickOutput) (camDir : V2) : V2 :=
  if (playerMoveVectorRaw joy camDir).lengthSq > 0.01 then
    normalize0 (playerMoveVectorRaw joy camDir)
  else playerMoveVectorRaw joy camDir

/-- Lines 643-647: target facing from `atan2` of the normalized move vector
when its squared length exceeds 0.01, else the previous facing. -/
noncomputable def playerTargetRotation (st : PlayerSt) (joy : JoystickOutput)
    (camDir : V2) : ℝ :=
  if (playerMoveVectorRaw joy camDir).lengthSq > 0.01 then
    atan2 (normalize0 (playerMoveVectorRaw joy camDir)).x
      (normalize0 (playerMoveVectorRaw joy camDir)).z
  else st.rotationY

/-- The tentative next player position (lines 653-655): position plus
`moveVector × moveSpeed × Δt` with `moveSpeed = 4.0` (line 630). -/
noncomputable def playerTentative (st : PlayerSt) (joy : JoystickOutput)
    (camDir : V2) (delta : ℝ) : V2 :=
  st.position.add ((playerMoveVector joy camDir).smul (4.0 * delta))

/-- The player movement tick (lines 626-662): facing advances by
`shortestAngleDiff × rotationSpeed × Δt` (rotationSpeed = 2π, line 631); the
tentative position is rolled back atomically when it violates the diamond
arena boundary `|x| + |z| > 0.98 × mapRadius` (lines 657-659); the walk-bob
accumulator advances by `Δt × 8` while input is active and resets to zero
otherwise (lines 636, 648). -/
noncomputable def playerTick (st : PlayerSt) (joy : JoystickOutput)
    (camDir : V2) (delta : ℝ) : PlayerSt :=
  let walkTime := if joy.active then st.walkTime + delta * 8 else 0
  let rot := st.rotationY +
    shortestAngleDiff st.rotationY (playerTargetRotation st joy camDir) *
      (Real.pi * 2) * delta
  let tentative := playerTentative st joy camDir delta
  let pos := if |tentative.x| + |tentative.z| > mapRadius * 0.98 then st.position
    else tentative
  ⟨pos, rot, walkTime⟩

/-! ## Roam target sampling (src/unnamed/part_000 lines 41-59) -/

/-- The rejection-sampling loop of `getRandomRoamTarget` (lines 47-57): each
attempt consumes one pair of `Math.random()` draws; an attempt is rejected
when it leaves the Euclidean disc of radius `boundary`, when it is within the
blue-fountain avoidance radius while the sampling position has z > 0, or when
it is within the red-fountain avoidance radius; when the attempt list is
exhausted the fallback pair yields an unconstrained point of half-width
`boundary / 2` (line 58). -/
noncomputable def roamAttempts
    (boundary blueBaseAvoidRadius redBaseAvoidRadius : ℝ)
    (currentPos blueFountainPos redFountainPos : V2) :
    List (ℝ × ℝ) → ℝ × ℝ → V2
  | [], fallback =>
    ⟨(fallback.1 - 0.5) * boundary, (fallback.2 - 0.5) * boundary⟩
  | draw :: rest, fallback =>
    let targetPos : V2 :=
      ⟨(draw.1 - 0.5) * 2 * boundary, (draw.2 - 0.5) * 2 * boundary⟩
    if targetPos.lengthSq > boundary * boundary then
      roamAttempts boundary blueBaseAvoidRadius redBaseAvoidRadius currentPos
        blueFountainPos redFountainPos rest fallback
    else if distSq targetPos blueFountainPos <
        blueBaseAvoidRadius * blueBaseAvoidRadius ∧ currentPos.z > 0 then
      roamAttempts boundary blueBaseAvoidRadius redBaseAvoidRadius currentPos
        blueFountainPos redFountainPos rest fallback
    else if distSq targetPos redFountainPos <
        redBaseAvoidRadius * redBaseAvoidRadius then
      roamAttempts boundary blueBaseAvoidRadius redBaseAvoidRadius currentPos
        blueFountainPos redFountainPos rest fallback
    else targetPos

/-- `getRandomRoamTarget` (lines 41-59); the source loop performs 10
attempts, so the tick calls pass a ten-element `draws` list. -/
noncomputable def getRandomRoamTarget (mapR : ℝ)
    (currentPos blueFountainPos redFountainPos : V2)
    (draws : List (ℝ × ℝ)) (fallback : ℝ × ℝ) : V2 :=
  roamAttempts (mapR * 0.95) (mapR * 0.3) (mapR * 0.2) currentPos
    blueFountainPos redFountainPos draws fallback

/-! ## Enemy AI controller (src/unnamed/part_000 lines 679-818) -/

/-- The enemy finite-state machine states (line 200). -/
inductive AIState where
  | ROAMING
  | CHASING_PLAYER
  | ATTACKING_PLAYER
  | FLEEING_TOWER
deriving DecidableEq

/-- `EnemyState` (lines 189-204), without the mesh/material references. -/
structure EnemySt where
  position : V2
  rotationY : ℝ
  currentTarget : V2
  roamTimer : ℝ
  isMoving : Bool
  walkAnimationTime : ℝ
  aiState : AIState
  attackCooldownTimer : ℝ
  isAttackingVisual : Bool
  attackEffectTimer : ℝ

/-- The attack-visual flag and timer after the visual-update block of the
tick (lines 683-698); the material writes of that block are modelled by
`enemyEffectTick`. -/
noncomputable def enemyVisualStep (st : EnemySt) (delta : ℝ) : Bool × ℝ :=
  if st.isAttackingVisual then
    if st.attackEffectTimer + delta ≥ ENEMY_ATTACK_EFFECT_DURATION then
      (false, 0)
    else (true, st.attackEffectTimer + delta)
  else (st.isAttackingVisual, st.attackEffectTimer)

/-- The nearest hostile tower scan (lines 709-718): a running minimum over
the tower list, starting from `Infinity` (modelled by `none`). -/
noncomputable def closestTowerAux (pos : V2) :
    List V2 → Option (V2 × ℝ) → Option (V2 × ℝ)
  | [], acc => acc
  | t :: rest, acc =>
    let dSq := distSq pos t
    let acc' := match acc with
      | none => some (t, dSq)
      | some (p, best) => if dSq < best then some (t, dSq) else some (p, best)
    closestTowerAux pos rest acc'

/-- The per-tick AI decision of the enemy logic before movement: the selected
state, the pending target, the force-roam-retarget flag, the decremented
timers, the visual flag/timer and the particle-burst requests issued. -/
structure EnemyDecision where
  aiState : AIState
  newTarget : V2
  forceNewRoamTarget : Bool
  roamTimer : ℝ
  attackCooldownTimer : ℝ
  isAttackingVisual : Bool
  attackEffectTimer : ℝ
  emits : List (V2 × ℝ)

/-- The priority evaluation of the tick (lines 680-755): timers decremented
and clamped at zero; tower threat forces `FLEEING_TOWER` with a target
displaced away from the tower; otherwise a previous flee decays to
`ROAMING` with a forced retarget, then the attack, chase, and roam checks run
in order. -/
noncomputable def enemyPriority (st : EnemySt) (playerPos : V2)
    (towers : List V2) (delta : ℝ) : EnemyDecision :=
  let cooldown := max 0 (st.attackCooldownTimer - delta)
  let roamT := max 0 (st.roamTimer - delta)
  let vis := enemyVisualStep st delta
  let distanceToPlayerSq := distSq st.position playerPos
  let fleeFrom : Option V2 :=
    match closestTowerAux st.position towers none with
    | some (tpos, dSq) =>
      if dSq < TOWER_AVOIDANCE_RANGE_ENEMY_SQR then some tpos else none
    | none => none
  match fleeFrom with
  | some tpos =>
    ⟨AIState.FLEEING_TOWER,
      st.position.add
        ((normalize0 (st.position.sub tpos)).smul FLEE_DISTANCE_FROM_TOWER),
      false, roamT, cooldown, vis.1, vis.2, []⟩
  | none =>
    let s0 := if st.aiState = AIState.FLEEING_TOWER then AIState.ROAMING
      else st.aiState
    let f0 := if st.aiState = AIState.FLEEING_TOWER then true else false
    if s0 ≠ AIState.FLEEING_TOWER ∧
        distanceToPlayerSq < ENEMY_ATTACK_RANGE_SQR ∧ cooldown ≤ 0 ∧
        vis.1 = false then
      ⟨AIState.ATTACKING_PLAYER, playerPos, f0, roamT, ENEMY_ATTACK_COOLDOWN,
        true, 0, [(st.position, 0.8)]⟩
    else if s0 ≠ AIState.FLEEING_TOWER ∧ s0 ≠ AIState.ATTACKING_PLAYER ∧
        distanceToPlayerSq < ENEMY_DETECTION_RANGE_SQR then
      ⟨AIState.CHASING_PLAYER, playerPos, f0, roamT, cooldown, vis.1, vis.2, []⟩
    else if s0 ≠ AIState.FLEEING_TOWER ∧ s0 ≠ AIState.ATTACKING_PLAYER then
      if s0 = AIState.CHASING_PLAYER ∧
          distanceToPlayerSq ≥ ENEMY_DETECTION_RANGE_SQR then
        ⟨AIState.ROAMING, st.currentTarget, true, roamT, cooldown, vis.1,
          vis.2, []⟩
      else if s0 = AIState.ROAMING ∧ (roamT ≤ 0 ∨
          distSq st.position st.currentTarget <
            ENEMY_TARGET_REACH_THRESHOLD * ENEMY_TARGET_REACH_THRESHOLD) then
        ⟨s0, st.currentTarget, true, roamT, cooldown, vis.1, vis.2, []⟩
      else ⟨s0, st.currentTarget, f0, roamT, cooldown, vis.1, vis.2, []⟩
    else ⟨s0, st.currentTarget, f0, roamT, cooldown, vis.1, vis.2, []⟩

/-- The attack-completion re-evaluation after the priority block
(lines 757-770): while the attack animation plays the decision is kept; once
the visual has ended (flag cleared by the visual step) an `ATTACKING_PLAYER`
state re-evaluates into chasing (player still detected) or roaming with a
forced retarget, within the same tick. -/
noncomputable def enemyPostEval (d : EnemyDecision) (playerPos : V2)
    (distanceToPlayerSq : ℝ) : EnemyDecision :=
  if d.aiState = AIState.ATTACKING_PLAYER ∧ d.isAttackingVisual = true ∧
      d.attackEffectTimer < ENEMY_ATTACK_EFFECT_DURATION then d
  else if d.aiState = AIState.ATTACKING_PLAYER ∧
      d.isAttackingVisual = false then
    if distanceToPlayerSq < ENEMY_DETECTION_RANGE_SQR then
      { d with aiState := AIState.CHASING_PLAYER, newTarget := playerPos }
    else { d with aiState := AIState.ROAMING, forceNewRoamTarget := true }
  else d

/-- The full AI decision of one tick (lines 680-770). -/
noncomputable def enemyAI (st : EnemySt) (playerPos : V2) (towers : List V2)
    (delta : ℝ) : EnemyDecision :=
  enemyPostEval (enemyPriority st playerPos towers delta) playerPos
    (distSq st.position playerPos)

/-- The target / roam-timer commit of the tick (lines 773-779): a forced
retarget draws a fresh roam target and resets the roam timer to
`min + rand × (max − min)`; otherwise the pending target and the decremented
roam timer are kept. -/
noncomputable def enemyCommit (st : EnemySt) (d : EnemyDecision)
    (roamDraws : List (ℝ × ℝ)) (roamFallback : ℝ × ℝ) (roamRand : ℝ) :
    V2 × ℝ :=
  if d.forceNewRoamTarget then
    (getRandomRoamTarget mapRadius st.position blueFountainPosition
        redFountainPosition roamDraws roamFallback,
      ENEMY_ROAM_TARGET_UPDATE_MIN_INTERVAL + roamRand *
        (ENEMY_ROAM_TARGET_UPDATE_MAX_INTERVAL -
          ENEMY_ROAM_TARGET_UPDATE_MIN_INTERVAL))
  else (d.newTarget, d.roamTimer)

/-- The tentative next enemy position of the movement block (lines 790-792):
position plus the normalized direction to target times
`ENEMY_MOVE_SPEED × Δt`. -/
noncomputable def enemyTentative (st : EnemySt) (target : V2) (delta : ℝ) : V2 :=
  st.position.add
    ((normalize0 (target.sub st.position)).smul (ENEMY_MOVE_SPEED * delta))

/-- The movement/animation block of the tick (lines 782-817): when not in an
active attack animation the enemy steers toward the committed target (facing
interpolation, fixed speed, atomic rollback on arena-boundary violation with
a forced roam-timer expiry for non-fleeing states, walk-bob advance);
otherwise it stands still with the walk-bob reset. -/
noncomputable def enemyMove (st : EnemySt) (d : EnemyDecision) (target : V2)
    (roamTimer : ℝ) (delta : ℝ) : EnemySt :=
  if d.aiState ≠ AIState.ATTACKING_PLAYER ∨ d.isAttackingVisual = false then
    if (target.sub st.position).lengthSq > 0.01 then
      let dir := normalize0 (target.sub st.position)
      let rot := st.rotationY +
        shortestAngleDiff st.rotationY (atan2 dir.x dir.z) *
          ENEMY_ROTATION_SPEED * delta
      let tentative := st.position.add (dir.smul (ENEMY_MOVE_SPEED * delta))
      if |tentative.x| + |tentative.z| > mapRadius * 0.98 then
        ⟨st.position, rot, target,
          if d.aiState ≠ AIState.FLEEING_TOWER then 0 else roamTimer,
          true, st.walkAnimationTime + delta * 7, d.aiState,
          d.attackCooldownTimer, d.isAttackingVisual, d.attackEffectTimer⟩
      else
        ⟨tentative, rot, target, roamTimer, true,
          st.walkAnimationTime + delta * 7, d.aiState, d.attackCooldownTimer,
          d.isAttackingVisual, d.attackEffectTimer⟩
    else
      ⟨st.position, st.rotationY, target,
        if d.aiState = AIState.ROAMING ∨ d.aiState = AIState.FLEEING_TOWER
          then 0 else roamTimer,
        false, 0, d.aiState, d.attackCooldownTimer, d.isAttackingVisual,
        d.attackEffectTimer⟩
  else
    ⟨st.position, st.rotationY, target, roamTimer, false, 0, d.aiState,
      d.attackCooldownTimer, d.isAttackingVisual, d.attackEffectTimer⟩

/-- One full enemy tick (lines 679-818): the AI decision, the target/timer
commit, and the movement block; the second component lists the particle
bursts requested during the tick. -/
noncomputable def enemyTick (st : EnemySt) (playerPos : V2) (towers : List V2)
    (delta : ℝ) (roamDraws : List (ℝ × ℝ)) (roamFallback : ℝ × ℝ)
    (roamRand : ℝ) : EnemySt × List (V2 × ℝ) :=
  let d := enemyAI st playerPos towers delta
  let tr := enemyCommit st d roamDraws roamFallback roamRand
  (enemyMove st d tr.1 tr.2 delta, d.emits)

/-! ## Evaluation helpers -/

lemma V2_ext (a b c d : ℝ) (h1 : a = c) (h2 : b = d) :
    V2.mk a b = V2.mk c d := by rw [h1, h2]

lemma normalize0_eval (a b c : ℝ) (hc : 0 < c) (h : a * a + b * b = c ^ 2) :
    normalize0 ⟨a, b⟩ = ⟨a / c, b / c⟩ := by
  simp only [normalize0, V2.lengthSq]
  rw [h, Real.sqrt_sq hc.le, if_neg (ne_of_gt hc)]

lemma normalize0_01 : normalize0 ⟨(0 : ℝ), 1⟩ = ⟨0, 1⟩ := by
  rw [normalize0_eval 0 1 1 one_pos (by norm_num)]
  exact V2_ext _ _ _ _ (by norm_num) (by norm_num)

lemma normalize0_10 : normalize0 ⟨(1 : ℝ), 0⟩ = ⟨1, 0⟩ := by
  rw [normalize0_eval 1 0 1 one_pos (by norm_num)]
  exact V2_ext _ _ _ _ (by norm_num) (by norm_num)

lemma normalize0_50 : normalize0 ⟨(5 : ℝ), 0⟩ = ⟨1, 0⟩ := by
  rw [normalize0_eval 5 0 5 (by norm_num) (by norm_num)]
  exact V2_ext _ _ _ _ (by norm_num) (by norm_num)

lemma atan2_zero_one : atan2 0 1 = 0 := by
  simp only [atan2]
  rw [if_pos one_pos]
  norm_num [Real.arctan_zero]

lemma truncR_neg_inv_two_pi : truncR (-1 / (Real.pi * 2)) = 0 := by
  have hpi : (3.141592 : ℝ) < Real.pi := Real.pi_gt_d6
  have hq0 : -1 / (Real.pi * 2) < 0 := by
    apply div_neg_of_neg_of_pos (by norm_num)
    positivity
  have hq1 : (-1 : ℝ) < -1 / (Real.pi * 2) := by
    rw [neg_div]
    rw [neg_lt_neg_iff]
    rw [div_lt_one (by positivity)]
    nlinarith
  simp only [truncR]
  rw [if_neg (by push_neg; exact hq0)]
  rw [Int.ceil_eq_zero_iff]
  constructor
  · exact hq1
  · exact hq0.le

lemma shortestAngleDiff_one_zero : shortestAngleDiff 1 0 = -1 := by
  have hpi : (3.141592 : ℝ) < Real.pi := Real.pi_gt_d6
  have hrem : jsRem (0 - 1) (Real.pi * 2) = -1 := by
    simp only [jsRem]
    rw [show ((0 : ℝ) - 1) = -1 by norm_num, truncR_neg_inv_two_pi]
    norm_num
  simp only [shortestAngleDiff, hrem]
  rw [if_neg (by nlinarith), if_neg (by push_neg; nlinarith)]

/-! ## C5: atomic boundary rollback -/

lemma playerMoveVectorRaw_ex :
    playerMoveVectorRaw ⟨0, -1, true⟩ ⟨0, 1⟩ = ⟨0, 1⟩ := by
  simp only [playerMoveVectorRaw, if_true, normalize0_01, V2.smul, V2.add]
  exact V2_ext _ _ _ _ (by ring) (by ring)

lemma playerMoveVector_ex :
    playerMoveVector ⟨0, -1, true⟩ ⟨0, 1⟩ = ⟨0, 1⟩ := by
  simp only [playerMoveVector, playerMoveVectorRaw_ex]
  rw [if_pos (by simp only [V2.lengthSq]; norm_num), normalize0_01]

lemma playerTentative_ex :
    playerTentative ⟨⟨0, 48.9⟩, 1, 0⟩ ⟨0, -1, true⟩ ⟨0, 1⟩ 0.1 = ⟨0, 49.3⟩ := by
  simp only [playerTentative, playerMoveVector_ex, V2.add, V2.smul]
  exact V2_ext _ _ _ _ (by norm_num) (by norm_num)

lemma playerTentative_ex_viol :
    |(playerTentative ⟨⟨0, 48.9⟩, 1, 0⟩ ⟨0, -1, true⟩ ⟨0, 1⟩ 0.1).x| +
      |(playerTentative ⟨⟨0, 48.9⟩, 1, 0⟩ ⟨0, -1, true⟩ ⟨0, 1⟩ 0.1).z| >
      mapRadius * 0.98 := by
  rw [playerTentative_ex]
  simp only [mapRadius]
  rw [show |(0 : ℝ)| = 0 by norm_num, show |(49.3 : ℝ)| = 49.3 by norm_num]
  norm_num

lemma playerTargetRotation_ex :
    playerTargetRotation ⟨⟨0, 48.9⟩, 1, 0⟩ ⟨0, -1, true⟩ ⟨0, 1⟩ = 0 := by
  simp only [playerTargetRotation, playerMoveVectorRaw_ex]
  rw [if_pos (by simp only [V2.lengthSq]; norm_num), normalize0_01]
  exact atan2_zero_one

/-- C5: for both actors, a tick whose tentatively advanced position violates
the diamond arena boundary `|x| + |z| > 0.98 × mapRadius` leaves the actor's
position exactly unchanged (both horizontal coordinates rolled back
atomically), and the facing angle may still have been updated in such a tick
(third conjunct: a concrete violating tick whose facing changes). -/
theorem C5_boundary_rollback :
    (∀ (st : PlayerSt) (joy : JoystickOutput) (camDir : V2) (delta : ℝ),
      |(playerTentative st joy camDir delta).x| +
          |(playerTentative st joy camDir delta).z| > mapRadius * 0.98 →
      (playerTick st joy camDir delta).position = st.position) ∧
    (∀ (st : EnemySt) (d : EnemyDecision) (target : V2) (roamTimer delta : ℝ),
      |(enemyTentative st target delta).x| +
          |(enemyTentative st target delta).z| > mapRadius * 0.98 →
      (enemyMove st d target roamTimer delta).position = st.position) ∧
    (∃ (st : PlayerSt) (joy : JoystickOutput) (camDir : V2) (delta : ℝ),
      |(playerTentative st joy camDir delta).x| +
          |(playerTentative st joy camDir delta).z| > mapRadius * 0.98 ∧
      (playerTick st joy camDir delta).position = st.position ∧
      (playerTick st joy camDir delta).rotationY ≠ st.rotationY) := by
  have hplayer : ∀ (st : PlayerSt) (joy : JoystickOutput) (camDir : V2)
      (delta : ℝ),
      |(playerTentative st joy camDir delta).x| +
          |(playerTentative st joy camDir delta).z| > mapRadius * 0.98 →
      (playerTick st joy camDir delta).position = st.position := by
    intro st joy camDir delta h
    have e : (playerTick st joy camDir delta).position =
        if |(playerTentative st joy camDir delta).x| +
            |(playerTentative st joy camDir delta).z| > mapRadius * 0.98 then
          st.position
        else playerTentative st joy camDir delta := rfl
    rw [e, if_pos h]
  refine ⟨hplayer, ?_, ?_⟩
  · intro st d target roamTimer delta h
    simp only [enemyTentative] at h
    simp only [enemyMove]
    by_cases hgate : d.aiState ≠ AIState.ATTACKING_PLAYER ∨
        d.isAttackingVisual = false
    · rw [if_pos hgate]
      by_cases hlen : (target.sub st.position).lengthSq > 0.01
      · rw [if_pos hlen, if_pos h]
      · rw [if_neg hlen]
    · rw [if_neg hgate]
  · refine ⟨⟨⟨0, 48.9⟩, 1, 0⟩, ⟨0, -1, true⟩, ⟨0, 1⟩, 0.1,
      playerTentative_ex_viol,
      hplayer _ _ _ _ playerTentative_ex_viol, ?_⟩
    have hrot : (playerTick ⟨⟨0, 48.9⟩, 1, 0⟩ ⟨0, -1, true⟩ ⟨0, 1⟩
        0.1).rotationY =
        1 + shortestAngleDiff 1 0 * (Real.pi * 2) * 0.1 := by
      simp only [playerTick, playerTargetRotation_ex]
    rw [hrot, shortestAngleDiff_one_zero]
    have hpi : (3.141592 : ℝ) < Real.pi := Real.pi_gt_d6
    intro hc
    nlinarith

/-- Witness for C5: at the concrete violating tick of the proof, the player
position is unchanged. -/
theorem C5_witness :
    (playerTick ⟨⟨0, 48.9⟩, 1, 0⟩ ⟨0, -1, true⟩ ⟨0, 1⟩ 0.1).position =
      (⟨0, 48.9⟩ : V2) :=
  C5_boundary_rollback.1 ⟨⟨0, 48.9⟩, 1, 0⟩ ⟨0, -1, true⟩ ⟨0, 1⟩ 0.1
    playerTentative_ex_viol

/-! ## C8: roam target sampling -/

lemma roamAttempts_spec (boundary blueR redR : ℝ) (hb : 0 < boundary)
    (currentPos blueF redF : V2) (fallback : ℝ × ℝ)
    (hf1 : 0 ≤ fallback.1) (hf1' : fallback.1 < 1)
    (hf2 : 0 ≤ fallback.2) (hf2' : fallback.2 < 1) :
    ∀ draws : List (ℝ × ℝ),
      (roamAttempts boundary blueR redR currentPos blueF redF draws
          fallback).lengthSq ≤ boundary * boundary ∧
      (roamAttempts boundary blueR redR currentPos blueF redF draws fallback =
          ⟨(fallback.1 - 0.5) * boundary, (fallback.2 - 0.5) * boundary⟩ ∨
        (¬(distSq (roamAttempts boundary blueR redR currentPos blueF redF
            draws fallback) blueF < blueR * blueR ∧ currentPos.z > 0) ∧
          ¬(distSq (roamAttempts boundary blueR redR currentPos blueF redF
            draws fallback) redF < redR * redR))) := by
  intro draws
  induction draws with
  | nil =>
    constructor
    · simp only [roamAttempts, V2.lengthSq]
      have a1 : (fallback.1 - 0.5) * (fallback.1 - 0.5) ≤ 0.25 := by nlinarith
      have a2 : (fallback.2 - 0.5) * (fallback.2 - 0.5) ≤ 0.25 := by nlinarith
      have hbb : (0 : ℝ) ≤ boundary * boundary := by positivity
      nlinarith [a1, a2, hbb]
    · left; rfl
  | cons draw rest ih =>
    simp only [roamAttempts]
    split
    · exact ih
    · rename_i hlen
      split
      · exact ih
      · rename_i hblue
        split
        · exact ih
        · rename_i hred
          push_neg at hlen
          exact ⟨hlen, Or.inr ⟨hblue, hred⟩⟩

/-- C8 (amended): every roam target chosen by `getRandomRoamTarget` lies in
the Euclidean disc of radius 0.95 × mapRadius around the arena centre (a
region that extends beyond the diamond arena boundary at its corners); an
accepted (non-fallback) sample additionally avoids the red fountain by the
red avoidance radius always, and the blue fountain by the blue avoidance
radius only when the sampling position has z > 0; the sampling rejects over
the supplied attempt list (ten attempts in the source) and falls back to an
unconstrained point on exhaustion; and a forced roam retarget in the enemy
tick simultaneously resets the roam timer to `4 + u × 4 ∈ [4, 8)` for the
uniform draw `u ∈ [0, 1)`. -/
theorem C8_roam_target_spec (currentPos : V2) (draws : List (ℝ × ℝ))
    (fallback : ℝ × ℝ) (hf1 : 0 ≤ fallback.1) (hf1' : fallback.1 < 1)
    (hf2 : 0 ≤ fallback.2) (hf2' : fallback.2 < 1)
    (st : EnemySt) (d : EnemyDecision) (u : ℝ) (hu : 0 ≤ u) (hu' : u < 1) :
    ((getRandomRoamTarget mapRadius currentPos blueFountainPosition
        redFountainPosition draws fallback).lengthSq ≤
      (mapRadius * 0.95) * (mapRadius * 0.95)) ∧
    (getRandomRoamTarget mapRadius currentPos blueFountainPosition
        redFountainPosition draws fallback =
        ⟨(fallback.1 - 0.5) * (mapRadius * 0.95),
          (fallback.2 - 0.5) * (mapRadius * 0.95)⟩ ∨
      (¬(distSq (getRandomRoamTarget mapRadius currentPos
            blueFountainPosition redFountainPosition draws fallback)
            blueFountainPosition < (mapRadius * 0.3) * (mapRadius * 0.3) ∧
          currentPos.z > 0) ∧
        ¬(distSq (getRandomRoamTarget mapRadius currentPos
            blueFountainPosition redFountainPosition draws fallback)
            redFountainPosition < (mapRadius * 0.2) * (mapRadius * 0.2)))) ∧
    (d.forceNewRoamTarget = true →
      (enemyCommit st d draws fallback u).1 =
        getRandomRoamTarget mapRadius st.position blueFountainPosition
          redFountainPosition draws fallback ∧
      (enemyCommit st d draws fallback u).2 = 4 + u * 4 ∧
      4 ≤ (enemyCommit st d draws fallback u).2 ∧
      (enemyCommit st d draws fallback u).2 < 8) := by
  have h := roamAttempts_spec (mapRadius * 0.95) (mapRadius * 0.3)
    (mapRadius * 0.2) (by norm_num [mapRadius]) currentPos
    blueFountainPosition redFountainPosition fallback hf1 hf1' hf2 hf2' draws
  refine ⟨h.1, h.2, ?_⟩
  intro hforce
  have e1 : (enemyCommit st d draws fallback u).1 =
      getRandomRoamTarget mapRadius st.position blueFountainPosition
        redFountainPosition draws fallback := by
    simp only [enemyCommit, hforce, if_true]
  have e2 : (enemyCommit st d draws fallback u).2 = 4 + u * 4 := by
    simp only [enemyCommit, hforce, if_true,
      ENEMY_ROAM_TARGET_UPDATE_MIN_INTERVAL,
      ENEMY_ROAM_TARGET_UPDATE_MAX_INTERVAL]
    norm_num
  exact ⟨e1, e2, by rw [e2]; nlinarith, by rw [e2]; nlinarith⟩

/-- Witness for C8 at concrete inputs: an exhausted attempt list falls back
to a point inside the disc, and a forced retarget with `u = 0.5` resets the
roam timer to 6. -/
theorem C8_witness :
    (getRandomRoamTarget mapRadius ⟨0, 0⟩ blueFountainPosition
        redFountainPosition [] (0.5, 0.5)).lengthSq ≤
      (mapRadius * 0.95) * (mapRadius * 0.95) ∧
    (enemyCommit ⟨⟨0, 0⟩, 0, ⟨0, 0⟩, 0, false, 0, AIState.ROAMING, 0, false, 0⟩
        ⟨AIState.ROAMING, ⟨0, 0⟩, true, 0, 0, false, 0, []⟩ [] (0.5, 0.5)
        0.5).2 = 4 + 0.5 * 4 := by
  have h := C8_roam_target_spec ⟨0, 0⟩ [] (0.5, 0.5) (by norm_num)
    (by norm_num) (by norm_num) (by norm_num)
    ⟨⟨0, 0⟩, 0, ⟨0, 0⟩, 0, false, 0, AIState.ROAMING, 0, false, 0⟩
    ⟨AIState.ROAMING, ⟨0, 0⟩, true, 0, 0, false, 0, []⟩ 0.5 (by norm_num)
    (by norm_num)
  exact ⟨h.1, (h.2.2 rfl).2.1⟩

/-- C8 counterexample: with the enemy at the origin, the accepted sample of
the random draw (0.9, 0.7) is the point (38, 19), which violates the diamond
arena boundary `|x| + |z| ≤ 0.98 × mapRadius` — the chosen roam target does
not lie within the arena; and the accepted sample of the draw (0.5, 0.1) is
(0, −38), which lies within the blue-fountain avoidance radius (the blue
bias is skipped whenever the enemy's z ≤ 0), so the choice is not biased
away from both fountains. -/
theorem C8_counterexample :
    getRandomRoamTarget mapRadius ⟨0, 0⟩ blueFountainPosition
      redFountainPosition [(0.9, 0.7)] (0, 0) = ⟨38, 19⟩ ∧
    |(38 : ℝ)| + |(19 : ℝ)| > mapRadius * 0.98 ∧
    getRandomRoamTarget mapRadius ⟨0, 0⟩ blueFountainPosition
      redFountainPosition [(0.5, 0.1)] (0, 0) = ⟨0, -38⟩ ∧
    distSq ⟨0, -38⟩ blueFountainPosition <
      (mapRadius * 0.3) * (mapRadius * 0.3) := by
  refine ⟨?_, ?_, ?_, ?_⟩
  · simp only [getRandomRoamTarget, roamAttempts, mapRadius,
      blueFountainPosition, redFountainPosition]
    rw [if_neg (by simp only [V2.lengthSq]; norm_num),
      if_neg (fun hc => absurd hc.2 (by norm_num)),
      if_neg (by simp only [distSq]; norm_num)]
    exact V2_ext _ _ _ _ (by norm_num) (by norm_num)
  · rw [show |(38 : ℝ)| = 38 from abs_of_nonneg (by norm_num),
      show |(19 : ℝ)| = 19 from abs_of_nonneg (by norm_num)]
    norm_num [mapRadius]
  · simp only [getRandomRoamTarget, roamAttempts, mapRadius,
      blueFountainPosition, redFountainPosition]
    rw [if_neg (by simp only [V2.lengthSq]; norm_num),
      if_neg (fun hc => absurd hc.2 (by norm_num)),
      if_neg (by simp only [distSq]; norm_num)]
    exact V2_ext _ _ _ _ (by norm_num) (by norm_num)
  · simp only [distSq, blueFountainPosition, mapRadius]
    norm_num

/-! ## C3: the attack transition -/

lemma closestTowerAux_ge (pos : V2) (c : ℝ) :
    ∀ (towers : List V2) (acc : Option (V2 × ℝ)),
      (∀ t ∈ towers, c ≤ distSq pos t) →
      (∀ p dd, acc = some (p, dd) → c ≤ dd) →
      ∀ p dd, closestTowerAux pos towers acc = some (p, dd) → c ≤ dd := by
  intro towers
  induction towers with
  | nil => intro acc _ hacc p dd h; exact hacc p dd h
  | cons t rest ih =>
    intro acc hall hacc p dd h
    simp only [closestTowerAux] at h
    refine ih _ (fun x hx => hall x (List.mem_cons_of_mem t hx)) ?_ p dd h
    intro q ee he
    cases acc with
    | none =>
      simp only [Option.some.injEq, Prod.mk.injEq] at he
      rw [← he.2]
      exact hall t (List.mem_cons_self t rest)
    | some pb =>
      obtain ⟨pp, bb⟩ := pb
      dsimp only at he
      by_cases hlt : distSq pos t < bb
      · rw [if_pos hlt] at he
        simp only [Option.some.injEq, Prod.mk.injEq] at he
        rw [← he.2]
        exact hall t (List.mem_cons_self t rest)
      · rw [if_neg hlt] at he
        exact hacc q ee he

lemma enemyPriority_attack (st : EnemySt) (playerPos : V2) (towers : List V2)
    (delta : ℝ)
    (htow : ∀ t ∈ towers,
      TOWER_AVOIDANCE_RANGE_ENEMY_SQR ≤ distSq st.position t)
    (hrange : distSq st.position playerPos < ENEMY_ATTACK_RANGE_SQR)
    (hcool : max 0 (st.attackCooldownTimer - delta) ≤ 0)
    (hvis : (enemyVisualStep st delta).1 = false) :
    enemyPriority st playerPos towers delta =
      ⟨AIState.ATTACKING_PLAYER, playerPos,
        if st.aiState = AIState.FLEEING_TOWER then true else false,
        max 0 (st.roamTimer - delta), ENEMY_ATTACK_COOLDOWN, true, 0,
        [(st.position, 0.8)]⟩ := by
  have hflee : ∀ p dd, closestTowerAux st.position towers none = some (p, dd) →
      TOWER_AVOIDANCE_RANGE_ENEMY_SQR ≤ dd :=
    closestTowerAux_ge st.position TOWER_AVOIDANCE_RANGE_ENEMY_SQR towers none
      htow (by intro p dd h; exact absurd h (by simp))
  simp only [enemyPriority]
  split
  · rename_i tpos heq
    exfalso
    split at heq
    · rename_i p dd heq'
      split at heq
      · rename_i hlt
        exact absurd hlt (not_lt.mpr (hflee p dd heq'))
      · exact Option.noConfusion heq
    · exact Option.noConfusion heq
  · rename_i heq
    by_cases hp : st.aiState = AIState.FLEEING_TOWER
    · simp only [hp, if_true]
      rw [if_pos ⟨by simp, hrange, hcool, hvis⟩]
    · simp only [if_neg hp]
      rw [if_pos ⟨hp, hrange, hcool, hvis⟩]

lemma enemyAI_attack (st : EnemySt) (playerPos : V2) (towers : List V2)
    (delta : ℝ)
    (htow : ∀ t ∈ towers,
      TOWER_AVOIDANCE_RANGE_ENEMY_SQR ≤ distSq st.position t)
    (hrange : distSq st.position playerPos < ENEMY_ATTACK_RANGE_SQR)
    (hcool : max 0 (st.attackCooldownTimer - delta) ≤ 0)
    (hvis : (enemyVisualStep st delta).1 = false) :
    enemyAI st playerPos towers delta =
      ⟨AIState.ATTACKING_PLAYER, playerPos,
        if st.aiState = AIState.FLEEING_TOWER then true else false,
        max 0 (st.roamTimer - delta), ENEMY_ATTACK_COOLDOWN, true, 0,
        [(st.position, 0.8)]⟩ := by
  simp only [enemyAI,
    enemyPriority_attack st playerPos towers delta htow hrange hcool hvis]
  simp only [enemyPostEval]
  rw [if_pos (by norm_num [ENEMY_ATTACK_EFFECT_DURATION])]

/-- C3 (amended): on a tick with no hostile tower within the flee-avoidance
radius, squared player distance below the attack threshold 4.84, attack
cooldown ≤ 0 and no attack visual playing, AND the previous state not
`FleeingTower` (otherwise the flee-exit branch forces a fresh roam target
that overwrites the captured player position), the tick transitions to
`ATTACKING_PLAYER`, starts the attack-visual timer at 0, resets the cooldown
to the fixed 2.5 s constant, requests exactly one particle burst at the
enemy's position, and freezes the target at the player's position captured
on that tick. -/
theorem C3_attack_transition (st : EnemySt) (playerPos : V2)
    (towers : List V2) (delta : ℝ) (roamDraws : List (ℝ × ℝ))
    (roamFallback : ℝ × ℝ) (roamRand : ℝ)
    (htow : ∀ t ∈ towers,
      TOWER_AVOIDANCE_RANGE_ENEMY_SQR ≤ distSq st.position t)
    (hrange : distSq st.position playerPos < ENEMY_ATTACK_RANGE_SQR)
    (hcool : max 0 (st.attackCooldownTimer - delta) ≤ 0)
    (hvis : (enemyVisualStep st delta).1 = false)
    (hprev : st.aiState ≠ AIState.FLEEING_TOWER) :
    (enemyTick st playerPos towers delta roamDraws roamFallback
        roamRand).1.aiState = AIState.ATTACKING_PLAYER ∧
    (enemyTick st playerPos towers delta roamDraws roamFallback
        roamRand).1.isAttackingVisual = true ∧
    (enemyTick st playerPos towers delta roamDraws roamFallback
        roamRand).1.attackEffectTimer = 0 ∧
    (enemyTick st playerPos towers delta roamDraws roamFallback
        roamRand).1.attackCooldownTimer = ENEMY_ATTACK_COOLDOWN ∧
    (enemyTick st playerPos towers delta roamDraws roamFallback
        roamRand).2 = [(st.position, 0.8)] ∧
    (enemyTick st playerPos towers delta roamDraws roamFallback
        roamRand).1.currentTarget = playerPos := by
  have hd := enemyAI_attack st playerPos towers delta htow hrange hcool hvis
  rw [if_neg hprev] at hd
  have hcommit : enemyCommit st
      ⟨AIState.ATTACKING_PLAYER, playerPos, false, max 0 (st.roamTimer - delta),
        ENEMY_ATTACK_COOLDOWN, true, 0, [(st.position, 0.8)]⟩
      roamDraws roamFallback roamRand =
      (playerPos, max 0 (st.roamTimer - delta)) := by
    simp only [enemyCommit]
    rw [if_neg (by simp)]
  have hmove : enemyMove st
      ⟨AIState.ATTACKING_PLAYER, playerPos, false, max 0 (st.roamTimer - delta),
        ENEMY_ATTACK_COOLDOWN, true, 0, [(st.position, 0.8)]⟩
      playerPos (max 0 (st.roamTimer - delta)) delta =
      ⟨st.position, st.rotationY, playerPos, max 0 (st.roamTimer - delta),
        false, 0, AIState.ATTACKING_PLAYER, ENEMY_ATTACK_COOLDOWN, true, 0⟩ := by
    simp only [enemyMove]
    rw [if_neg (by simp)]
  simp [enemyTick, hd, hcommit, hmove]

/-- Witness for C3: a concrete roaming enemy at the origin with the player
one unit away, cooldown expired, no visual, and a tower 20 units away
transitions to the attacking state with exactly one burst request. -/
theorem C3_witness :
    (enemyTick ⟨⟨0, 0⟩, 0, ⟨3, 3⟩, 5, false, 0, AIState.ROAMING, 0, false, 0⟩
        ⟨1, 0⟩ [⟨0, 20⟩] 0.1 [] (0, 0) 0).1.aiState =
      AIState.ATTACKING_PLAYER ∧
    (enemyTick ⟨⟨0, 0⟩, 0, ⟨3, 3⟩, 5, false, 0, AIState.ROAMING, 0, false, 0⟩
        ⟨1, 0⟩ [⟨0, 20⟩] 0.1 [] (0, 0) 0).2 = [(⟨0, 0⟩, 0.8)] ∧
    (enemyTick ⟨⟨0, 0⟩, 0, ⟨3, 3⟩, 5, false, 0, AIState.ROAMING, 0, false, 0⟩
        ⟨1, 0⟩ [⟨0, 20⟩] 0.1 [] (0, 0) 0).1.currentTarget = ⟨1, 0⟩ := by
  have h := C3_attack_transition
    ⟨⟨0, 0⟩, 0, ⟨3, 3⟩, 5, false, 0, AIState.ROAMING, 0, false, 0⟩
    ⟨1, 0⟩ [⟨0, 20⟩] 0.1 [] (0, 0) 0
    (by
      intro t ht
      simp only [List.mem_singleton] at ht
      subst ht
      simp only [distSq, TOWER_AVOIDANCE_RANGE_ENEMY_SQR]
      norm_num)
    (by simp only [distSq, ENEMY_ATTACK_RANGE_SQR]; norm_num)
    (by norm_num)
    (by simp [enemyVisualStep])
    (by simp)
  exact ⟨h.1, h.2.2.2.2.1, h.2.2.2.2.2⟩

/-- C3 counterexample: the same attack conditions hold (no hostile tower in
flee range, player in attack range, cooldown expired, no visual), but the
enemy was previously `FLEEING_TOWER`: the tick still transitions to
`ATTACKING_PLAYER`, yet the flee-exit branch forces a roam retarget, so the
enemy's target after the tick is the fresh roam point (9.5, 9.5), not the
player's captured position (1, 0) — the target is not frozen at the player. -/
theorem C3_counterexample :
    (∀ t ∈ ([⟨0, 20⟩] : List V2),
      TOWER_AVOIDANCE_RANGE_ENEMY_SQR ≤ distSq (⟨0, 0⟩ : V2) t) ∧
    distSq (⟨0, 0⟩ : V2) ⟨1, 0⟩ < ENEMY_ATTACK_RANGE_SQR ∧
    max 0 ((0 : ℝ) - 0.1) ≤ 0 ∧
    (enemyVisualStep
      ⟨⟨0, 0⟩, 0, ⟨3, 3⟩, 5, false, 0, AIState.FLEEING_TOWER, 0, false, 0⟩
      0.1).1 = false ∧
    (enemyTick
        ⟨⟨0, 0⟩, 0, ⟨3, 3⟩, 5, false, 0, AIState.FLEEING_TOWER, 0, false, 0⟩
        ⟨1, 0⟩ [⟨0, 20⟩] 0.1 [(0.6, 0.6)] (0, 0) 0).1.aiState =
      AIState.ATTACKING_PLAYER ∧
    (enemyTick
        ⟨⟨0, 0⟩, 0, ⟨3, 3⟩, 5, false, 0, AIState.FLEEING_TOWER, 0, false, 0⟩
        ⟨1, 0⟩ [⟨0, 20⟩] 0.1 [(0.6, 0.6)] (0, 0) 0).1.currentTarget ≠
      (⟨1, 0⟩ : V2) := by
  have htow : ∀ t ∈ ([⟨0, 20⟩] : List V2),
      TOWER_AVOIDANCE_RANGE_ENEMY_SQR ≤ distSq (⟨0, 0⟩ : V2) t := by
    intro t ht
    simp only [List.mem_singleton] at ht
    subst ht
    simp only [distSq, TOWER_AVOIDANCE_RANGE_ENEMY_SQR]
    norm_num
  have hd := enemyAI_attack
    ⟨⟨0, 0⟩, 0, ⟨3, 3⟩, 5, false, 0, AIState.FLEEING_TOWER, 0, false, 0⟩
    ⟨1, 0⟩ [⟨0, 20⟩] 0.1 htow
    (by simp only [distSq, ENEMY_ATTACK_RANGE_SQR]; norm_num)
    (by norm_num)
    (by simp [enemyVisualStep])
  rw [if_pos (show
    (⟨⟨0, 0⟩, 0, ⟨3, 3⟩, 5, false, 0, AIState.FLEEING_TOWER, 0, false,
      0⟩ : EnemySt).aiState = AIState.FLEEING_TOWER from rfl)] at hd
  have hroam : getRandomRoamTarget mapRadius ⟨0, 0⟩ blueFountainPosition
      redFountainPosition [(0.6, 0.6)] (0, 0) = ⟨9.5, 9.5⟩ := by
    simp only [getRandomRoamTarget, roamAttempts, mapRadius,
      blueFountainPosition, redFountainPosition]
    rw [if_neg (by simp only [V2.lengthSq]; norm_num),
      if_neg (fun hc => absurd hc.2 (by norm_num)),
      if_neg (by simp only [distSq]; norm_num)]
    exact V2_ext _ _ _ _ (by norm_num) (by norm_num)
  have hcommit : enemyCommit
      ⟨⟨0, 0⟩, 0, ⟨3, 3⟩, 5, false, 0, AIState.FLEEING_TOWER, 0, false, 0⟩
      ⟨AIState.ATTACKING_PLAYER, ⟨1, 0⟩, true, max 0 ((5 : ℝ) - 0.1),
        ENEMY_ATTACK_COOLDOWN, true, 0, [(⟨0, 0⟩, 0.8)]⟩
      [(0.6, 0.6)] (0, 0) 0 = (⟨9.5, 9.5⟩, 4 + 0 * (8 - 4)) := by
    simp only [enemyCommit, ENEMY_ROAM_TARGET_UPDATE_MIN_INTERVAL,
      ENEMY_ROAM_TARGET_UPDATE_MAX_INTERVAL]
    rw [if_pos trivial, hroam]
  have hmove : enemyMove
      ⟨⟨0, 0⟩, 0, ⟨3, 3⟩, 5, false, 0, AIState.FLEEING_TOWER, 0, false, 0⟩
      ⟨AIState.ATTACKING_PLAYER, ⟨1, 0⟩, true, max 0 ((5 : ℝ) - 0.1),
        ENEMY_ATTACK_COOLDOWN, true, 0, [(⟨0, 0⟩, 0.8)]⟩
      ⟨9.5, 9.5⟩ (4 + 0 * (8 - 4)) 0.1 =
      ⟨⟨0, 0⟩, 0, ⟨9.5, 9.5⟩, 4 + 0 * (8 - 4), false, 0,
        AIState.ATTACKING_PLAYER, ENEMY_ATTACK_COOLDOWN, true, 0⟩ := by
    simp only [enemyMove]
    rw [if_neg (by simp)]
  refine ⟨htow, by simp only [distSq, ENEMY_ATTACK_RANGE_SQR]; norm_num,
    by norm_num, by simp [enemyVisualStep], ?_, ?_⟩
  · simp only [enemyTick, hd, hcommit, hmove]
  · simp only [enemyTick, hd, hcommit, hmove]
    intro hc
    have := congrArg V2.x hc
    norm_num at this

/-! ## C2: no motion during the attack animation -/

/-- C2 (amended): on every tick whose AI decision selects
`ATTACKING_PLAYER` while the attack-visual flag is active at movement time,
the enemy's position and facing angle are left unchanged and the walk-bob
accumulator is reset to zero (it does not advance).  The restriction to the
`ATTACKING_PLAYER` decision is necessary: under a tower-flee override the
movement gate `aiState ≠ ATTACKING_PLAYER ∨ ¬isAttackingVisual` opens and
the enemy moves despite the active visual (see the counterexample). -/
theorem C2_attack_visual_freezes (st : EnemySt) (playerPos : V2)
    (towers : List V2) (delta : ℝ) (roamDraws : List (ℝ × ℝ))
    (roamFallback : ℝ × ℝ) (roamRand : ℝ)
    (h1 : (enemyAI st playerPos towers delta).aiState =
      AIState.ATTACKING_PLAYER)
    (h2 : (enemyAI st playerPos towers delta).isAttackingVisual = true) :
    (enemyTick st playerPos towers delta roamDraws roamFallback
        roamRand).1.position = st.position ∧
    (enemyTick st playerPos towers delta roamDraws roamFallback
        roamRand).1.rotationY = st.rotationY ∧
    (enemyTick st playerPos towers delta roamDraws roamFallback
        roamRand).1.walkAnimationTime = 0 := by
  have hc : ¬((enemyAI st playerPos towers delta).aiState ≠
      AIState.ATTACKING_PLAYER ∨
      (enemyAI st playerPos towers delta).isAttackingVisual = false) := by
    push_neg
    exact ⟨h1, by rw [h2]; simp⟩
  simp only [enemyTick, enemyMove]
  rw [if_neg hc]
  exact ⟨rfl, rfl, rfl⟩

/-- Witness for C2: the concrete fresh-attack tick (decision
`ATTACKING_PLAYER` with the visual raised) leaves the enemy at the origin
with facing and walk-bob untouched. -/
theorem C2_witness :
    (enemyTick ⟨⟨0, 0⟩, 0, ⟨3, 3⟩, 5, false, 0, AIState.ROAMING, 0, false, 0⟩
        ⟨1, 0⟩ [⟨0, 20⟩] 0.1 [] (0, 0) 0).1.position = (⟨0, 0⟩ : V2) ∧
    (enemyTick ⟨⟨0, 0⟩, 0, ⟨3, 3⟩, 5, false, 0, AIState.ROAMING, 0, false, 0⟩
        ⟨1, 0⟩ [⟨0, 20⟩] 0.1 [] (0, 0) 0).1.walkAnimationTime = 0 := by
  have hd := enemyAI_attack
    ⟨⟨0, 0⟩, 0, ⟨3, 3⟩, 5, false, 0, AIState.ROAMING, 0, false, 0⟩
    ⟨1, 0⟩ [⟨0, 20⟩] 0.1
    (by
      intro t ht
      simp only [List.mem_singleton] at ht
      subst ht
      simp only [distSq, TOWER_AVOIDANCE_RANGE_ENEMY_SQR]
      norm_num)
    (by simp only [distSq, ENEMY_ATTACK_RANGE_SQR]; norm_num)
    (by norm_num)
    (by simp [enemyVisualStep])
  have h := C2_attack_visual_freezes
    ⟨⟨0, 0⟩, 0, ⟨3, 3⟩, 5, false, 0, AIState.ROAMING, 0, false, 0⟩
    ⟨1, 0⟩ [⟨0, 20⟩] 0.1 [] (0, 0) 0 (by rw [hd]) (by rw [hd])
  exact ⟨h.1, h.2.2⟩

lemma V2_sub_5_0 : (⟨5, 0⟩ : V2).sub ⟨0, 0⟩ = ⟨5, 0⟩ := by
  simp only [V2.sub]
  exact V2_ext _ _ _ _ (by norm_num) (by norm_num)

lemma V2_sub_10_5 : (⟨10, 0⟩ : V2).sub ⟨5, 0⟩ = ⟨5, 0⟩ := by
  simp only [V2.sub]
  exact V2_ext _ _ _ _ (by norm_num) (by norm_num)

/-- C2 counterexample: the enemy stands at (5, 0) with an active attack
visual (flag raised, effect timer 0) while a hostile tower at the origin
lies within the flee-avoidance radius.  The tick's priority evaluation
overrides the state to `FLEEING_TOWER`; the attack-visual flag is still
active at movement time, yet the enemy translates from x = 5 to
x = 5 + 3.2 × 0.1 = 5.32 — so the enemy does not hold still during the
visual under a tower-flee override. -/
theorem C2_counterexample :
    (enemyAI ⟨⟨5, 0⟩, 0, ⟨0, 0⟩, 5, false, 0, AIState.ATTACKING_PLAYER, 2,
        true, 0⟩ ⟨40, 0⟩ [⟨0, 0⟩] 0.1).isAttackingVisual = true ∧
    (enemyAI ⟨⟨5, 0⟩, 0, ⟨0, 0⟩, 5, false, 0, AIState.ATTACKING_PLAYER, 2,
        true, 0⟩ ⟨40, 0⟩ [⟨0, 0⟩] 0.1).aiState = AIState.FLEEING_TOWER ∧
    (enemyTick ⟨⟨5, 0⟩, 0, ⟨0, 0⟩, 5, false, 0, AIState.ATTACKING_PLAYER, 2,
        true, 0⟩ ⟨40, 0⟩ [⟨0, 0⟩] 0.1 [] (0, 0) 0).1.position.x =
      5 + 1 * (3.2 * 0.1) ∧
    ((5 : ℝ) + 1 * (3.2 * 0.1) ≠ 5) := by
  have hvisF : enemyVisualStep ⟨⟨5, 0⟩, 0, ⟨0, 0⟩, 5, false, 0,
      AIState.ATTACKING_PLAYER, 2, true, 0⟩ 0.1 = (true, 0 + 0.1) := by
    simp only [enemyVisualStep, eq_self_iff_true, if_true]
    rw [if_neg (by norm_num [ENEMY_ATTACK_EFFECT_DURATION])]
  have hct : closestTowerAux ⟨5, 0⟩ [⟨0, 0⟩] none = some (⟨0, 0⟩, 25) := by
    simp only [closestTowerAux]
    rw [show distSq ⟨5, 0⟩ ⟨0, 0⟩ = 25 by simp only [distSq]; norm_num]
  have htgt : (⟨5, 0⟩ : V2).add
      ((normalize0 ((⟨5, 0⟩ : V2).sub ⟨0, 0⟩)).smul FLEE_DISTANCE_FROM_TOWER) =
      ⟨10, 0⟩ := by
    rw [V2_sub_5_0, normalize0_50]
    simp only [V2.smul, V2.add, FLEE_DISTANCE_FROM_TOWER]
    exact V2_ext _ _ _ _ (by norm_num) (by norm_num)
  have hp : enemyPriority ⟨⟨5, 0⟩, 0, ⟨0, 0⟩, 5, false, 0,
      AIState.ATTACKING_PLAYER, 2, true, 0⟩ ⟨40, 0⟩ [⟨0, 0⟩] 0.1 =
      ⟨AIState.FLEEING_TOWER, ⟨10, 0⟩, false, max 0 ((5 : ℝ) - 0.1),
        max 0 ((2 : ℝ) - 0.1), true, 0 + 0.1, []⟩ := by
    simp only [enemyPriority, hvisF, hct]
    rw [if_pos (by norm_num [TOWER_AVOIDANCE_RANGE_ENEMY_SQR])]
    dsimp only
    rw [htgt]
  have hdF : enemyAI ⟨⟨5, 0⟩, 0, ⟨0, 0⟩, 5, false, 0,
      AIState.ATTACKING_PLAYER, 2, true, 0⟩ ⟨40, 0⟩ [⟨0, 0⟩] 0.1 =
      ⟨AIState.FLEEING_TOWER, ⟨10, 0⟩, false, max 0 ((5 : ℝ) - 0.1),
        max 0 ((2 : ℝ) - 0.1), true, 0 + 0.1, []⟩ := by
    simp only [enemyAI, hp, enemyPostEval]
    rw [if_neg (fun hcon => absurd hcon.1 (by simp)),
      if_neg (fun hcon => absurd hcon.1 (by simp))]
  have hcommit : enemyCommit ⟨⟨5, 0⟩, 0, ⟨0, 0⟩, 5, false, 0,
      AIState.ATTACKING_PLAYER, 2, true, 0⟩
      ⟨AIState.FLEEING_TOWER, ⟨10, 0⟩, false, max 0 ((5 : ℝ) - 0.1),
        max 0 ((2 : ℝ) - 0.1), true, 0 + 0.1, []⟩ [] (0, 0) 0 =
      (⟨10, 0⟩, max 0 ((5 : ℝ) - 0.1)) := by
    simp only [enemyCommit]
    rw [if_neg (by simp)]
  refine ⟨by rw [hdF], by rw [hdF], ?_, by norm_num⟩
  simp only [enemyTick, hdF, hcommit]
  simp only [enemyMove, V2_sub_10_5, normalize0_50]
  rw [if_pos (Or.inl (show AIState.FLEEING_TOWER ≠ AIState.ATTACKING_PLAYER
    by simp))]
  rw [if_pos (show ((⟨5, 0⟩ : V2)).lengthSq > 0.01
    by simp only [V2.lengthSq]; norm_num)]
  rw [if_neg (show ¬(|((⟨5, 0⟩ : V2).add ((⟨1, 0⟩ : V2).smul
      (ENEMY_MOVE_SPEED * 0.1))).x| + |((⟨5, 0⟩ : V2).add ((⟨1, 0⟩ : V2).smul
      (ENEMY_MOVE_SPEED * 0.1))).z| > mapRadius * 0.98) by
    simp only [V2.add, V2.smul, ENEMY_MOVE_SPEED, mapRadius]
    rw [show |(5 : ℝ) + 1 * (3.2 * 0.1)| = 5 + 1 * (3.2 * 0.1) from
      abs_of_nonneg (by norm_num),
      show |(0 : ℝ) + 0 * (3.2 * 0.1)| = 0 + 0 * (3.2 * 0.1) from
      abs_of_nonneg (by norm_num)]
    norm_num)]
  simp only [V2.add, V2.smul, ENEMY_MOVE_SPEED]

end Moba
